import Mathlib

/-!
Smart Campus: timetable import, manual scheduling and room status.

A shallow embedding of the data paths of the Smart Campus web client
(`DataImport.jsx`, `CreateTimetable.jsx`, `CancelClass.jsx`,
`AdminRoomAvailability.jsx`, `csvProcessor.js`).  JavaScript strings are
Lean strings, `undefined`/`null` is `none`, the hosted stores are explicit
tables, and every call sent to a hosted store is recorded in a trace.
-/

set_option autoImplicit false

namespace SmartCampus

/-! ## JavaScript primitives -/

/-- The UTF-16 code units of one character, the units JavaScript compares strings by. -/
def utf16Units (c : Char) : List Nat :=
  if c.toNat < 65536 then [c.toNat]
  else [55296 + (c.toNat - 65536) / 1024, 56320 + (c.toNat - 65536) % 1024]

/-- The UTF-16 code units of a list of characters. -/
def codeUnits : List Char → List Nat
  | [] => []
  | c :: cs => utf16Units c ++ codeUnits cs

/-- Lexicographic `<` on code-unit sequences (the string case of `IsLessThan`). -/
def unitsLt : List Nat → List Nat → Bool
  | _, [] => false
  | [], _ :: _ => true
  | a :: as, b :: bs => if a < b then true else if b < a then false else unitsLt as bs

/-- JavaScript `a < b` on two strings. -/
def strLt (a b : String) : Bool := unitsLt (codeUnits a.data) (codeUnits b.data)

/-- JavaScript `a <= b` where each side is a string or `undefined`:
with an `undefined` operand the comparison is `false`. -/
def jsLe : Option String → Option String → Bool
  | some a, some b => !strLt b a
  | _, _ => false

/-- JavaScript `a >= b` where each side is a string or `undefined`. -/
def jsGe : Option String → Option String → Bool
  | some a, some b => !strLt a b
  | _, _ => false

/-- Truthiness of a value that is a string or `undefined`. -/
def truthy : Option String → Bool
  | some s => s != ""
  | none => false

/-- The expression `a || b` with a string default. -/
def orElse (a : Option String) (b : String) : String :=
  match a with
  | some s => if s != "" then s else b
  | none => b

/-- Splitting a character list at every occurrence of a separator character. -/
def splitChars (sep : Char) : List Char → List (List Char)
  | [] => [[]]
  | c :: cs =>
    if c = sep then [] :: splitChars sep cs
    else match splitChars sep cs with
      | [] => [[c]]
      | p :: ps => (c :: p) :: ps

/-- The method `s.split(sep)` for a one-character separator. -/
def jsSplit (s : String) (sep : Char) : List String :=
  (splitChars sep s.data).map String.mk

/-- The method `s.includes(c)` for a one-character needle. -/
def jsIncludes (s : String) (c : Char) : Bool := s.data.contains c

/-- The method `s.startsWith(p)`. -/
def jsStartsWith (s p : String) : Bool := p.data.isPrefixOf s.data

/-- The method `xs.join(sep)` on an array of strings. -/
def jsJoin (sep : String) : List String → String
  | [] => ""
  | [x] => x
  | x :: y :: rest => x ++ sep ++ jsJoin sep (y :: rest)

/-- The decimal digit character of a number below ten. -/
def digitChar (d : Nat) : Char := Char.ofNat (48 + d)

/-- Decimal digits of a natural number, most significant first, pushed in
front of an accumulator; the fuel bounds the number of digits. -/
def decimalCore : Nat → Nat → List Char → List Char
  | 0, _, acc => acc
  | fuel + 1, n, acc =>
    if n < 10 then digitChar n :: acc
    else decimalCore fuel (n / 10) (digitChar (n % 10) :: acc)

/-- The string a template literal renders for a non-negative integer. -/
def numToString (n : Nat) : String := String.mk (decimalCore (n + 1) n [])

/-- Built-ins of the host whose full definition (Unicode case mapping, the
number grammar, the clock) lies outside the repository. -/
structure Host where
  /-- The method `String.prototype.toLowerCase`. -/
  toLowerCase : String → String
  /-- The test `isNaN(parseInt(s))`. -/
  parseIntIsNaN : String → Bool
  /-- The value of `new Date().toISOString()`. -/
  now : String

/-- A host for evaluating ASCII examples. -/
def asciiHost : Host :=
  { toLowerCase := fun s => String.mk (s.data.map Char.toLower)
    parseIntIsNaN := fun s => !(s.data.head?.any Char.isDigit)
    now := "2024-09-01T00:00:00.000Z" }

/-! ## The CSV importer (`DataImport.jsx`): data model -/

/-- The constant `COLLEGE_ROOMS`. -/
def COLLEGE_ROOMS : List String :=
  ["101", "102", "103", "104", "105", "106", "EEE_LAB", "115", "116", "117", "118", "119", "AUD",
   "201", "202", "203", "CSE1", "CSE2", "CSE3", "CSE4", "PROJ_LAB", "CSE5", "215", "216", "C_LAB",
   "ENG_LAB", "SPORTS", "221",
   "301", "302", "IT_LAB", "LIB", "315", "316", "317", "318",
   "SIM1", "SIM2", "401", "402", "403", "415", "416"]

/-- One parsed CSV row: the columns the importer reads, each a string or absent. -/
structure CsvRow where
  room_id : Option String := none
  room_name : Option String := none
  course : Option String := none
  professor : Option String := none
  day : Option String := none
  period : Option String := none
  department : Option String := none
  year : Option String := none
  section_ : Option String := none
  semester : Option String := none
  start_time : Option String := none
  end_time : Option String := none
  capacity : Option String := none
  deriving DecidableEq, Repr

/-- A record of the `schedules` table.  A column the importer copies from a
CSV field without a default (`room_id`, `course_name`) is `null` when the
field is absent, and a record written elsewhere may hold `null` as period. -/
structure Schedule where
  room_id : Option String
  room_name : String
  course_name : Option String
  professor : String
  day : String
  period : Option String
  start_time : String
  end_time : String
  department : String
  year : String
  section_ : String
  semester : String
  is_active : Bool
  created_at : String
  deriving DecidableEq, Repr

/-- A record sent to the `rooms` table. -/
structure RoomRecord where
  id : String
  name : String
  building : String
  capacity : Nat
  department : Option String
  type : String
  status : String
  created_at : String
  updated_at : String
  deriving DecidableEq, Repr

/-- A record sent to the `department_timetables` table. -/
structure Summary where
  department : String
  semester : String
  total_courses : Nat
  total_rooms : Nat
  total_schedules : Nat
  last_updated : String
  uploaded_by : String
  deriving DecidableEq, Repr

/-- A record sent to the `timetable_files` table, without its display-only
`file_size` text. -/
structure FileInfo where
  id : Option String
  filename : String
  department : String
  semester : String
  uploaded_by : String
  status : String
  schedules_count : Nat
  validation_errors : Nat
  validation_warnings : Nat
  deriving DecidableEq, Repr

/-- The tables of the relational store the importer talks to. -/
structure Store where
  schedules : List Schedule := []
  rooms : List RoomRecord := []
  summaries : List Summary := []
  files : List FileInfo := []
  deriving DecidableEq, Repr

/-- A call the importer sends to the relational store. -/
inductive Call where
  | selectSchedules (room_id day : String)
  | insertSchedule (s : Schedule)
  | upsertRooms (rs : List RoomRecord)
  | upsertSummary (s : Summary)
  | insertFile (f : FileInfo)
  | selectFiles
  | selectDepartmentCount (department : String)
  | broadcast (department : String) (schedules : Nat)
  deriving DecidableEq, Repr

/-- Whether a call changes stored data. -/
def Call.isWrite : Call → Bool
  | .insertSchedule _ => true
  | .upsertRooms _ => true
  | .upsertSummary _ => true
  | .insertFile _ => true
  | _ => false

/-- How the store answers an insert into `schedules`. -/
inductive InsertOutcome where
  | ok
  | error (code : String)
  | thrown (code : String)
  deriving DecidableEq, Repr

/-- How the store answers the read of `timetable_files`. -/
inductive FilesAnswer where
  | rows
  | noData
  | error (code : String)
  deriving DecidableEq, Repr

/-- The part of the store's behaviour the client cannot see in the tables:
which reads fail and which inserts a constraint rejects.  Each answer is a
function of the stored tables and the call's arguments. -/
structure Backend where
  selectFails : Store → String → String → Bool
  insertOutcome : Store → Schedule → InsertOutcome
  roomsUpsertFails : Store → List RoomRecord → Bool
  summaryUpsertFails : Store → Summary → Bool
  fileInsertFails : Store → FileInfo → Bool
  filesAnswer : Store → FilesAnswer

/-- A store without constraints on which every call succeeds. -/
def plainBackend : Backend :=
  { selectFails := fun _ _ _ => false
    insertOutcome := fun _ _ => .ok
    roomsUpsertFails := fun _ _ => false
    summaryUpsertFails := fun _ _ => false
    fileInsertFails := fun _ _ => false
    filesAnswer := fun _ => .rows }

/-- The query `.eq('room_id', r).eq('day', d).eq('is_active', true)` on
`schedules`: the matching records, or `none` when the read fails. -/
def selectSchedules (be : Backend) (st : Store) (room_id day : String) : Option (List Schedule) :=
  if be.selectFails st room_id day then none
  else some (st.schedules.filter fun s => s.room_id == some room_id && s.day == day && s.is_active)

/-- One entry of `roomConflicts`. -/
structure RoomConflict where
  row : Nat
  room : String
  conflictWith : Option String
  conflictPeriod : String
  newPeriod : String
  day : String
  deriving DecidableEq, Repr

/-- The value `validateCSVData` returns. -/
structure Validation where
  errors : List String := []
  warnings : List String := []
  validRows : List CsvRow := []
  roomConflicts : List RoomConflict := []
  totalRows : Nat := 0
  deriving DecidableEq, Repr

/-! ## `validateCSVData` -/

/-- The text `Row ${rowNum}` that opens every message about a row. -/
def rowTag (rowNum : Nat) : String := "Row " ++ numToString rowNum

/-- The errors pushed for one row, in the order the checks run. -/
def rowErrors (rowNum : Nat) (row : CsvRow) : List String :=
  (if !truthy row.room_id then [rowTag rowNum ++ ": Missing room_id"] else []) ++
  (if !truthy row.course then [rowTag rowNum ++ ": Missing course"] else []) ++
  (if !truthy row.day then [rowTag rowNum ++ ": Missing day"] else []) ++
  (if !truthy row.period then [rowTag rowNum ++ ": Missing period"] else []) ++
  (match row.period with
   | some p =>
     if p != "" && !jsIncludes p '-' then
       [rowTag rowNum ++ ": Invalid period format (should be like \"8:40-9:30\")"]
     else []
   | none => [])

/-- The warnings pushed for one row. -/
def rowWarnings (host : Host) (rowNum : Nat) (row : CsvRow) : List String :=
  (match row.room_id with
   | some r =>
     if r != "" && !COLLEGE_ROOMS.contains r then
       [rowTag rowNum ++ ": Room " ++ r ++ " not found in college database"]
     else []
   | none => []) ++
  (match row.capacity with
   | some c =>
     if c != "" && host.parseIntIsNaN c then [rowTag rowNum ++ ": Invalid capacity value"] else []
   | none => [])

/-- The test `!(end1 <= start2 || start1 >= end2)` on the destructured halves
of the two periods. -/
def periodsOverlap (start1 end1 start2 end2 : Option String) : Bool :=
  !(jsLe end1 start2 || jsGe start1 end2)

/-- The body of `conflicts.forEach`: one entry per returned schedule that
passes the overlap test.  A returned schedule whose period is `null` makes
`split` throw, which ends the scan of this row (the enclosing `try` catches
it) and keeps the entries pushed so far. -/
def conflictScan (rowNum : Nat) (room period day : String) : List Schedule → List RoomConflict
  | [] => []
  | c :: cs =>
    match c.period with
    | none => []
    | some p2 =>
      let parts1 := jsSplit period '-'
      let parts2 := jsSplit p2 '-'
      (if periodsOverlap parts1[0]? parts1[1]? parts2[0]? parts2[1]? then
        [{ row := rowNum, room := room, conflictWith := c.course_name,
           conflictPeriod := p2, newPeriod := period, day := day }]
       else []) ++ conflictScan rowNum room period day cs

/-- The conflict check of one row: the query it sends and the entries it records. -/
def rowConflicts (host : Host) (be : Backend) (st : Store) (rowNum : Nat) (row : CsvRow) :
    List Call × List RoomConflict :=
  match row.room_id, row.day, row.period with
  | some r, some d, some p =>
    if r != "" && d != "" && p != "" then
      ([Call.selectSchedules r (host.toLowerCase d)],
        match selectSchedules be st r (host.toLowerCase d) with
        | some conflicts => conflictScan rowNum r p d conflicts
        | none => [])
    else ([], [])
  | _, _, _ => ([], [])

/-- One iteration of the loop of `validateCSVData` on the row at index `i`. -/
def validateRow (host : Host) (be : Backend) (st : Store) (i : Nat) (row : CsvRow)
    (acc : Validation × List Call) : Validation × List Call :=
  let rowNum := i + 2
  let errors := acc.1.errors ++ rowErrors rowNum row
  let checked := rowConflicts host be st rowNum row
  ({ errors := errors
     warnings := acc.1.warnings ++ rowWarnings host rowNum row
     validRows :=
       if !errors.any (fun e => jsStartsWith e (rowTag rowNum ++ ":")) then acc.1.validRows ++ [row]
       else acc.1.validRows
     roomConflicts := acc.1.roomConflicts ++ checked.2
     totalRows := acc.1.totalRows },
   acc.2 ++ checked.1)

/-- The loop of `validateCSVData` from index `i` on. -/
def validateLoop (host : Host) (be : Backend) (st : Store) :
    Nat → List CsvRow → Validation × List Call → Validation × List Call
  | _, [], acc => acc
  | i, row :: rest, acc => validateLoop host be st (i + 1) rest (validateRow host be st i row acc)

/-- The function `validateCSVData`, with the trace of the queries it sends. -/
def validateCSVData (host : Host) (be : Backend) (st : Store) (csvData : List CsvRow) :
    Validation × List Call :=
  validateLoop host be st 0 csvData ({ totalRows := csvData.length }, [])

/-! ## `resolveConflicts` -/

/-- The values of the `conflictResolution` selector. -/
inductive Resolution where
  | skip
  | override
  | manual
  deriving DecidableEq, Repr

/-- The call `xs.splice(start, 1)`: a negative start counts from the end,
a start past the end removes nothing. -/
def spliceOne {α : Type} (xs : List α) (start : Int) : List α :=
  if start < 0 then xs.eraseIdx (xs.length + start).toNat
  else xs.eraseIdx start.toNat

/-- The function `resolveConflicts`: one pass over the conflict entries, each
acting on the rows left by the previous ones. -/
def resolveConflicts (mode : Resolution) (conflicts : List RoomConflict)
    (validRows : List CsvRow) : List CsvRow :=
  conflicts.foldl
    (fun resolvedRows conflict =>
      match mode with
      | .skip => spliceOne resolvedRows ((conflict.row : Int) - 2)
      | .override => resolvedRows
      | .manual => spliceOne resolvedRows ((conflict.row : Int) - 2))
    validRows

/-! ## Room helpers of the importer -/

/-- The table `roomMap` of `getRoomName`. -/
def roomMap : List (String × String) :=
  [("101", "Room 101"), ("102", "Room 102"), ("103", "Chemistry Lab"), ("104", "Room 104"),
   ("105", "CSM Lab"), ("106", "Room 106"), ("EEE_LAB", "EEE Lab"), ("115", "Room 115"),
   ("116", "Room 116"), ("117", "Room 117"), ("118", "Room 118"), ("119", "Room 119"),
   ("AUD", "Auditorium"), ("201", "Room 201"), ("202", "Room 202"), ("203", "Room 203"),
   ("CSE1", "CSE Lab 1"), ("CSE2", "CSE Lab 2"), ("CSE3", "CSE Lab 3"), ("CSE4", "CSE Lab 4"),
   ("PROJ_LAB", "Project Lab"), ("CSE5", "CSE Lab 5"), ("215", "Room 215"), ("216", "Room 216"),
   ("C_LAB", "C Lab"), ("ENG_LAB", "English Lab"), ("SPORTS", "Sports Room"), ("221", "Room 221"),
   ("301", "Room 301"), ("302", "Room 302"), ("IT_LAB", "IT Lab"), ("LIB", "Library"),
   ("315", "Room 315"), ("316", "Room 316"), ("317", "Room 317"), ("318", "Room 318"),
   ("SIM1", "Simulation Lab 1"), ("SIM2", "Simulation Lab 2"), ("401", "Room 401"),
   ("402", "Room 402"), ("403", "Room 403"), ("415", "Room 415"), ("416", "Room 416")]

/-- The table `capacityMap` of `getRoomCapacity`. -/
def capacityMap : List (String × Nat) :=
  [("AUD", 150), ("LIB", 200), ("SPORTS", 100), ("301", 60), ("302", 60),
   ("401", 55), ("402", 55), ("403", 55), ("415", 60), ("416", 60),
   ("221", 50), ("315", 50), ("316", 50), ("317", 50), ("318", 50),
   ("102", 45), ("202", 45), ("101", 40), ("104", 40), ("201", 40), ("203", 40),
   ("215", 40), ("216", 40), ("115", 35), ("116", 35), ("117", 35), ("118", 35),
   ("119", 35), ("106", 50), ("CSE1", 30), ("CSE2", 30), ("CSE3", 30), ("CSE4", 30),
   ("CSE5", 30), ("105", 30), ("IT_LAB", 30), ("ENG_LAB", 30), ("C_LAB", 25),
   ("PROJ_LAB", 25), ("103", 20), ("SIM1", 20), ("SIM2", 20), ("EEE_LAB", 20)]

/-- The function `getRoomName`, called on members of `COLLEGE_ROOMS` only. -/
def getRoomName (roomId : String) : String :=
  match roomMap.lookup roomId with
  | some name => if name != "" then name else "Room " ++ roomId
  | none => "Room " ++ roomId

/-- The function `getRoomCapacity`. -/
def getRoomCapacity (roomId : String) : Nat :=
  match capacityMap.lookup roomId with
  | some c => if c != 0 then c else 30
  | none => 30

/-- The function `getRoomType`. -/
def getRoomType (roomId : String) : String :=
  if ["103", "105", "EEE_LAB", "CSE1", "CSE2", "CSE3", "CSE4", "CSE5",
      "PROJ_LAB", "C_LAB", "ENG_LAB", "IT_LAB", "SIM1", "SIM2"].contains roomId then "lab"
  else if roomId == "AUD" then "auditorium"
  else if roomId == "LIB" then "library"
  else if roomId == "SPORTS" then "sports"
  else "classroom"

/-! ## `handleFileUpload` -/

/-- The result of parsing the chosen file: its name, `meta.fields` and `data`. -/
structure ParsedCsv where
  name : String
  fields : Option (List String)
  data : List CsvRow
  deriving DecidableEq, Repr

/-- The component state the handler closes over when it is invoked. -/
structure UiState where
  selectedDepartment : String
  conflictResolution : Resolution
  validationDialog : Bool
  validationResults : Option Validation
  deriving DecidableEq, Repr

/-- The object `stats` of a finished upload. -/
structure Stats where
  rows : Nat
  newSchedules : Nat
  duplicates : Nat
  errors : Nat
  rooms : Nat
  courses : Nat
  deriving DecidableEq, Repr

/-- How an invocation of `handleFileUpload` ends.  `waiting` is the promise
that polls `validationDialog` and never sees it closed. -/
inductive Outcome where
  | noFile
  | failed (message : String)
  | succeeded (stats : Stats)
  | waiting
  deriving DecidableEq, Repr

/-- An invocation of a handler: how it ended, the store it left and the calls it sent. -/
structure Run where
  outcome : Outcome
  store : Store
  calls : List Call
  deriving DecidableEq, Repr

/-- The constant `requiredColumns` of `handleFileUpload`. -/
def requiredColumns : List String := ["room_id", "room_name", "course", "day", "period"]

/-- The value `requiredColumns.filter(col => !headers.includes(col))`, with
`headers = result.meta.fields || []`. -/
def missingColumns (fields : Option (List String)) : List String :=
  requiredColumns.filter fun col => !(fields.getD []).contains col

/-- A value that is a string or `undefined`, rendered inside a template literal. -/
def render : Option String → String
  | some s => s
  | none => "undefined"

/-- The schedule prepared from one row.  Reading `day` or `period` of a row
that lacks it throws a `TypeError`. -/
def prepareSchedule (host : Host) (ui : UiState) (row : CsvRow) : Except String Schedule :=
  match row.day, row.period with
  | none, _ => .error "Cannot read properties of undefined (reading 'toLowerCase')"
  | some _, none => .error "Cannot read properties of undefined (reading 'split')"
  | some day, some period =>
    let parts := jsSplit period '-'
    let first := parts.head?.getD ""
    .ok { room_id := row.room_id
          room_name := orElse row.room_name ("Room " ++ render row.room_id)
          course_name := row.course
          professor := orElse row.professor "Staff"
          day := host.toLowerCase day
          period := some period
          start_time := orElse row.start_time first
          end_time := orElse row.end_time (orElse parts[1]? first)
          department := orElse row.department ui.selectedDepartment
          year := orElse row.year "3"
          section_ := orElse row.section_ "A"
          semester := orElse row.semester "Fall 2024"
          is_active := true
          created_at := host.now }

/-- The key `${row.room_id}_${department}` under which a row's room is tracked. -/
def roomKey (ui : UiState) (row : CsvRow) : String :=
  render row.room_id ++ "_" ++ orElse row.department ui.selectedDepartment

/-- Adding to a `Set`: insertion order is kept, a present element is not added again. -/
def setAdd {α : Type} [DecidableEq α] (s : List α) (a : α) : List α :=
  if a ∈ s then s else s ++ [a]

/-- What the loop `finalRows.forEach` has built. -/
structure Prepared where
  schedulesData : List Schedule := []
  roomsSet : List String := []
  coursesSet : List (Option String) := []
  deriving DecidableEq, Repr

/-- The loop `finalRows.forEach`, which stops at the first row that throws. -/
def prepareRows (host : Host) (ui : UiState) : List CsvRow → Prepared → Except String Prepared
  | [], acc => .ok acc
  | row :: rest, acc =>
    match prepareSchedule host ui row with
    | .error e => .error e
    | .ok schedule =>
      prepareRows host ui rest
        { schedulesData := acc.schedulesData ++ [schedule]
          roomsSet := setAdd acc.roomsSet (roomKey ui row)
          coursesSet := setAdd acc.coursesSet row.course }

/-- The counters of the insert loop together with the store and the trace. -/
structure Counters where
  successCount : Nat := 0
  duplicateCount : Nat := 0
  errorCount : Nat := 0
  deriving DecidableEq, Repr

/-- The insert loop: every prepared schedule is sent once; the answer moves
one counter, and an accepted insert adds the record to the table. -/
def insertLoop (be : Backend) : List Schedule → Counters × Store × List Call →
    Counters × Store × List Call
  | [], acc => acc
  | schedule :: rest, (c, st, calls) =>
    let calls := calls ++ [Call.insertSchedule schedule]
    match be.insertOutcome st schedule with
    | .ok =>
      insertLoop be rest
        ({ c with successCount := c.successCount + 1 },
         { st with schedules := st.schedules ++ [schedule] }, calls)
    | .error code =>
      if code == "23505" then
        insertLoop be rest ({ c with duplicateCount := c.duplicateCount + 1 }, st, calls)
      else insertLoop be rest ({ c with errorCount := c.errorCount + 1 }, st, calls)
    | .thrown code =>
      if code == "23505" then
        insertLoop be rest ({ c with duplicateCount := c.duplicateCount + 1 }, st, calls)
      else insertLoop be rest ({ c with errorCount := c.errorCount + 1 }, st, calls)

/-- The room record built from one key of `roomsSet`. -/
def roomOfKey (host : Host) (key : String) : RoomRecord :=
  let parts := jsSplit key '_'
  let roomId := parts.head?.getD ""
  let dept := parts[1]?
  let collegeRoom := COLLEGE_ROOMS.contains roomId
  { id := roomId
    name := if collegeRoom then getRoomName roomId else "Room " ++ roomId
    building := "Main Building"
    capacity := if collegeRoom then getRoomCapacity roomId else 30
    department := dept
    type := if collegeRoom then getRoomType roomId else "classroom"
    status := "available"
    created_at := host.now
    updated_at := host.now }

/-- The list `roomsData` sent to the `rooms` upsert. -/
def roomsData (host : Host) (roomsSet : List String) : List RoomRecord :=
  roomsSet.map (roomOfKey host)

/-- An upsert of one record into a table keyed by `key`. -/
def upsertOne {α κ : Type} [DecidableEq κ] (key : α → κ) (table : List α) (r : α) : List α :=
  if table.any (fun x => key x = key r) then table.map (fun x => if key x = key r then r else x)
  else table ++ [r]

/-- The upsert of `roomsData` with `onConflict: 'id,department'`. -/
def upsertRooms (table : List RoomRecord) (rs : List RoomRecord) : List RoomRecord :=
  rs.foldl (upsertOne fun r => (r.id, r.department)) table

/-- The constant `departments`, by code. -/
def departments : List String := ["CSE", "CSM", "ECE", "EEE", "IT"]

/-- The record `createTimetableFilesTable` inserts. -/
def sampleFile : FileInfo :=
  { id := some "sample", filename := "No files uploaded yet", department := "CSE",
    semester := "Fall 2024", uploaded_by := "admin", status := "uploaded",
    schedules_count := 0, validation_errors := 0, validation_warnings := 0 }

/-- The function `createTimetableFilesTable`: one insert whose failure is logged only. -/
def createTimetableFilesTable (be : Backend) (st : Store) : Store × List Call :=
  (if be.fileInsertFails st sampleFile then st else { st with files := st.files ++ [sampleFile] },
   [Call.insertFile sampleFile])

/-- The function `fetchUploadedFiles`: the read of `timetable_files`, then
either the department counts or the creation of the sample record. -/
def fetchUploadedFiles (be : Backend) (st : Store) : Store × List Call :=
  match be.filesAnswer st with
  | .rows => (st, Call.selectFiles :: departments.map Call.selectDepartmentCount)
  | .noData =>
    let created := createTimetableFilesTable be st
    (created.1, Call.selectFiles :: created.2)
  | .error code =>
    if code == "42P01" then
      let created := createTimetableFilesTable be st
      (created.1, Call.selectFiles :: created.2)
    else (st, [Call.selectFiles])

/-- The function `saveFileInfo`: the insert of the file record and, when it
is accepted, the refresh of the file list. -/
def saveFileInfo (be : Backend) (ui : UiState) (filename : String) (stats : Stats) (st : Store) :
    Store × List Call :=
  let fileInfo : FileInfo :=
    { id := none
      filename := filename
      department := ui.selectedDepartment
      semester := "Fall 2024"
      uploaded_by := "admin"
      status := "uploaded"
      schedules_count := stats.newSchedules
      validation_errors := (ui.validationResults.map fun v => v.errors.length).getD 0
      validation_warnings := (ui.validationResults.map fun v => v.warnings.length).getD 0 }
  if be.fileInsertFails st fileInfo then (st, [Call.insertFile fileInfo])
  else
    let refreshed := fetchUploadedFiles be { st with files := st.files ++ [fileInfo] }
    (refreshed.1, Call.insertFile fileInfo :: refreshed.2)

/-- Steps 5 and 6 of `handleFileUpload` and what follows them: the room
upsert, the summary upsert, the file record and the broadcast, after an insert
loop that left the counters `counts`, the store `st1` and the trace `calls1`. -/
def completeUpload (host : Host) (be : Backend) (ui : UiState) (file : ParsedCsv)
    (prepared : Prepared) (counts : Counters) (st1 : Store) (calls1 : List Call) : Run :=
  let rooms := roomsData host prepared.roomsSet
  let st2 :=
    if rooms.length > 0 && !be.roomsUpsertFails st1 rooms then
      { st1 with rooms := upsertRooms st1.rooms rooms }
    else st1
  let calls2 := if rooms.length > 0 then calls1 ++ [Call.upsertRooms rooms] else calls1
  let summary : Summary :=
    { department := ui.selectedDepartment
      semester := "Fall 2024"
      total_courses := prepared.coursesSet.length
      total_rooms := prepared.roomsSet.length
      total_schedules := counts.successCount
      last_updated := host.now
      uploaded_by := "admin" }
  let st3 :=
    if be.summaryUpsertFails st2 summary then st2
    else { st2 with summaries :=
             upsertOne (fun s : Summary => (s.department, s.semester)) st2.summaries summary }
  let stats : Stats :=
    { rows := file.data.length
      newSchedules := counts.successCount
      duplicates := counts.duplicateCount
      errors := counts.errorCount
      rooms := prepared.roomsSet.length
      courses := prepared.coursesSet.length }
  let saved := saveFileInfo be ui file.name stats st3
  { outcome := .succeeded stats
    store := saved.1
    calls := calls2 ++ [Call.upsertSummary summary] ++ saved.2 ++
      [Call.broadcast ui.selectedDepartment counts.successCount] }

/-- Steps 3 to 6 of `handleFileUpload`, run on the store as it is when the
validation has returned: conflict resolution, the preparation of the
schedules, the insert loop and, unless nothing was inserted, the rest. -/
def commitUpload (host : Host) (be : Backend) (ui : UiState) (file : ParsedCsv)
    (validation : Validation) (st : Store) : Run :=
  let finalRows :=
    if validation.roomConflicts.length > 0 then
      resolveConflicts ui.conflictResolution validation.roomConflicts validation.validRows
    else validation.validRows
  match prepareRows host ui finalRows {} with
  | .error e => { outcome := .failed e, store := st, calls := [] }
  | .ok prepared =>
    let inserted := insertLoop be prepared.schedulesData ({}, st, [])
    if inserted.1.successCount == 0 && prepared.schedulesData.length > 0 then
      { outcome := .failed "No schedules were uploaded. All were duplicates or had errors."
        store := inserted.2.1, calls := inserted.2.2 }
    else completeUpload host be ui file prepared inserted.1 inserted.2.1 inserted.2.2

/-- Steps 1 and 2 of `handleFileUpload`: the empty-file check, the column
check and the validation.  The result is either the way the handler ends
there or the validation to commit; the trace holds the queries sent. -/
def checkUpload (host : Host) (be : Backend) (ui : UiState) (file : ParsedCsv) (st : Store) :
    (Outcome ⊕ Validation) × List Call :=
  if file.data.length == 0 then (.inl (.failed "CSV file is empty"), [])
  else if (missingColumns file.fields).length > 0 then
    (.inl (.failed ("Missing columns: " ++ jsJoin ", " (missingColumns file.fields))), [])
  else
    let validated := validateCSVData host be st file.data
    let validation := validated.1
    if validation.errors.length > 0 then
      (.inl (.failed ("Found " ++ numToString validation.errors.length ++ " validation errors")),
       validated.2)
    else if (validation.warnings.length > 0 || validation.roomConflicts.length > 0)
        && ui.validationDialog then
      (.inl .waiting, validated.2)
    else (.inr validation, validated.2)

/-- The handler `handleFileUpload` run without interference: `none` is an
event without a file. -/
def handleFileUpload (host : Host) (be : Backend) (ui : UiState) (event : Option ParsedCsv)
    (st : Store) : Run :=
  match event with
  | none => { outcome := .noFile, store := st, calls := [] }
  | some file =>
    match checkUpload host be ui file st with
    | (.inl outcome, calls) => { outcome := outcome, store := st, calls := calls }
    | (.inr validation, calls) =>
      let committed := commitUpload host be ui file validation st
      { committed with calls := calls ++ committed.calls }

/-! ## Two uploads sharing one store

Between its awaited calls a handler yields, so the calls of two uploads can
alternate.  A session advances in two moves, the validation and the commit,
each run on the store as it is at that moment. -/

/-- One invocation of `handleFileUpload`: the state it closes over and its file. -/
structure Session where
  ui : UiState
  file : ParsedCsv
  deriving DecidableEq, Repr

/-- How far a session has come. -/
inductive Progress where
  | idle
  | validated (validation : Validation) (calls : List Call)
  | finished (run : Run)
  deriving DecidableEq, Repr

/-- The next move of a session on the current store. -/
def advance (host : Host) (be : Backend) (s : Session) (st : Store) : Progress → Progress × Store
  | .idle =>
    match checkUpload host be s.ui s.file st with
    | (.inl outcome, calls) => (.finished { outcome := outcome, store := st, calls := calls }, st)
    | (.inr validation, calls) => (.validated validation calls, st)
  | .validated validation calls =>
    let committed := commitUpload host be s.ui s.file validation st
    (.finished { committed with calls := calls ++ committed.calls }, committed.store)
  | .finished run => (.finished run, st)

/-- Which of the two sessions moves. -/
inductive Turn where
  | first
  | second
  deriving DecidableEq, Repr

/-- The shared store and the progress of the two sessions. -/
structure World where
  store : Store
  first : Progress := .idle
  second : Progress := .idle
  deriving DecidableEq, Repr

/-- One move of the chosen session. -/
def World.step (host : Host) (be : Backend) (a b : Session) (w : World) : Turn → World
  | .first =>
    let moved := advance host be a w.store w.first
    { w with store := moved.2, first := moved.1 }
  | .second =>
    let moved := advance host be b w.store w.second
    { w with store := moved.2, second := moved.1 }

/-- The moves of an interleaving, in order. -/
def World.run (host : Host) (be : Backend) (a b : Session) (w : World) (turns : List Turn) : World :=
  turns.foldl (World.step host be a b) w

/-! ## Manual scheduling (`CreateTimetable.jsx`) and cancellation (`CancelClass.jsx`) -/

/-- A document of the `schedules` collection of the document store. -/
structure ScheduleDoc where
  id : String
  roomId : String
  course : String
  professor : String
  day : String
  period : String
  department : String
  year : String
  section_ : String
  isActive : Bool
  createdAt : String
  cancelled : Bool := false
  cancellationReason : Option String := none
  cancelledAt : Option String := none
  conflictResolved : Bool := false
  originalRoomId : Option String := none
  deriving DecidableEq, Repr

/-- A document of the `conflicts` collection of the document store. -/
structure ConflictDoc where
  roomId : String
  timeSlot : String
  conflictingDepartments : List String
  resolvedWith : String
  status : String
  createdAt : String
  deriving DecidableEq, Repr

/-- A document of the `rooms` collection of the document store. -/
structure RoomDoc where
  id : String
  name : String := ""
  building : String := ""
  status : Option String := none
  currentClass : Option String := none
  reason : Option String := none
  cancelledAt : Option String := none
  updatedAt : Option String := none
  deriving DecidableEq, Repr

/-- The collections of the document store. -/
structure Firestore where
  schedules : List ScheduleDoc := []
  rooms : List RoomDoc := []
  conflicts : List ConflictDoc := []
  deriving DecidableEq, Repr

/-- What the document store decides on its own: which calls reject and with
which message, and the identifier of the next added document. -/
structure Service where
  queryFails : Bool := false
  addFails : Bool := false
  addConflictFails : Bool := false
  updateRoomFails : Bool := false
  updateScheduleFails : Bool := false
  newId : String := "new"
  errorMessage : String := "unavailable"
  deriving DecidableEq, Repr

/-- A call sent to the document store. -/
inductive DocCall where
  | querySchedules (roomId : String) (day period : Option String)
  | addSchedule (d : ScheduleDoc)
  | updateRoomStatus (roomId : String) (status : String)
  | updateSchedule (id : String)
  | addConflict (d : ConflictDoc)
  deriving DecidableEq, Repr

/-- The state `formData` of the scheduling dialog. -/
structure FormData where
  roomId : String
  course : String
  professor : String
  day : String
  period : String
  deriving DecidableEq, Repr

/-- A cell of the local timetable. -/
structure ClassEntry where
  roomId : String
  course : String
  professor : String
  department : String
  year : String
  section_ : String
  deriving DecidableEq, Repr

/-- The state `conflictAlert`. -/
structure ConflictAlert where
  title : String
  message : String
  details : String
  conflicts : List ScheduleDoc
  day : String
  period : String
  deriving DecidableEq, Repr

/-- The state of the `CreateTimetable` component the handler reads and sets. -/
structure TimetableView where
  department : String
  year : String
  section_ : String
  formData : FormData
  timetable : List (String × List (String × Option ClassEntry))
  conflictAlert : Option ConflictAlert := none
  openDialog : Bool := true
  deriving DecidableEq, Repr

/-- A toast shown to the user. -/
inductive Toast where
  | error (message : String)
  | success (message : String)
  deriving DecidableEq, Repr

/-- An invocation of a handler of the document-store components. -/
structure DocRun (View : Type) where
  db : Firestore
  view : View
  toast : Option Toast
  calls : List DocCall

/-- The function `checkRoomConflicts`: the active schedules of the room at
that day and period; a rejected query counts as no conflict. -/
def checkRoomConflicts (sv : Service) (db : Firestore) (roomId day period : String) :
    List ScheduleDoc :=
  if sv.queryFails then []
  else db.schedules.filter fun s =>
    s.roomId == roomId && s.day == day && s.period == period && s.isActive

/-- Setting `key` in an object kept as a list of entries. -/
def setKey {β : Type} (key : String) (value : β) : List (String × β) → List (String × β)
  | [] => [(key, value)]
  | (k, v) :: rest => if k = key then (k, value) :: rest else (k, v) :: setKey key value rest

/-- The property names every plain object inherits from `Object.prototype`:
reading one of them on an object that has no such entry of its own gives the
inherited value, which is truthy, and not `undefined`. -/
def inheritedNames : List String :=
  ["constructor", "__defineGetter__", "__defineSetter__", "hasOwnProperty",
   "__lookupGetter__", "__lookupSetter__", "isPrototypeOf", "propertyIsEnumerable",
   "toString", "valueOf", "__proto__", "toLocaleString"]

/-- The assignment `obj[key] = value` of an object value on a plain object kept
as a list of its own entries: under `__proto__` the assignment replaces the
prototype and leaves the entries as they are. -/
def assignKey {β : Type} (key : String) (value : β) (obj : List (String × β)) :
    List (String × β) :=
  if key == "__proto__" then obj else setKey key value obj

/-- The call `updateDoc` on a room: it rejects when the document is missing. -/
def updateRoom (sv : Service) (db : Firestore) (roomId : String) (f : RoomDoc → RoomDoc) :
    Option Firestore :=
  if sv.updateRoomFails || !db.rooms.any (fun r => r.id == roomId) then none
  else some { db with rooms := db.rooms.map fun r => if r.id == roomId then f r else r }

/-- The local timetable after `newTimetable[day][period] = entry`, or `none`
when the statement throws.  A day the timetable has no row for reads
`undefined`, and setting a property of it throws a `TypeError`, unless the
day names an inherited property: then the entry lands on the inherited value
and the timetable's own rows stay as they are. -/
def setCell (timetable : List (String × List (String × Option ClassEntry)))
    (day period : String) (entry : ClassEntry) :
    Option (List (String × List (String × Option ClassEntry))) :=
  match timetable.lookup day with
  | some dayRow => some (setKey day (assignKey period (some entry) dayRow) timetable)
  | none => if inheritedNames.contains day then some timetable else none

/-- The handler `handleSaveClass`, with the two moments it talks to the
store kept apart: the conflict query is answered on `dbAtQuery`, and the add
and the room update act on `dbAtAdd`, the store as it is when the add is
sent.  The two calls are separate awaits, so another writer may have changed
the store in between. -/
def handleSaveClassAt (host : Host) (sv : Service) (view : TimetableView)
    (dbAtQuery dbAtAdd : Firestore) : DocRun TimetableView :=
  let form := view.formData
  if form.roomId == "" || form.course == "" || form.professor == "" then
    { db := dbAtQuery, view := view, toast := some (.error "Please fill all fields"),
      calls := [] }
  else
    let conflicts := checkRoomConflicts sv dbAtQuery form.roomId form.day form.period
    let query := DocCall.querySchedules form.roomId (some form.day) (some form.period)
    if conflicts.length > 0 then
      let conflictDetails := jsJoin ", " (conflicts.map fun c =>
        c.department ++ " Year " ++ c.year ++ " Sec " ++ c.section_ ++ " - " ++ c.course)
      let alert : ConflictAlert :=
        { title := "Room Conflict Detected!",
          message := "Room " ++ form.roomId ++ " is already allocated at " ++ form.day ++ " "
            ++ form.period,
          details := "Currently booked for: " ++ conflictDetails,
          conflicts := conflicts,
          day := form.day,
          period := form.period }
      { db := dbAtQuery, view := { view with conflictAlert := some alert }, toast := none,
        calls := [query] }
    else
      let scheduleData : ScheduleDoc :=
        { id := sv.newId, roomId := form.roomId, course := form.course,
          professor := form.professor, day := form.day, period := form.period,
          department := view.department, year := view.year, section_ := view.section_,
          isActive := true, createdAt := host.now }
      if sv.addFails then
        { db := dbAtAdd, view := view, toast := some (.error ("Error: " ++ sv.errorMessage)),
          calls := [query, .addSchedule scheduleData] }
      else
        let db1 := { dbAtAdd with schedules := dbAtAdd.schedules ++ [scheduleData] }
        let entry : ClassEntry :=
          { roomId := form.roomId, course := form.course, professor := form.professor,
            department := view.department, year := view.year, section_ := view.section_ }
        match setCell view.timetable form.day form.period entry with
        | none =>
          { db := db1, view := view,
            toast := some (.error ("Error: Cannot set properties of undefined (setting '"
              ++ form.period ++ "')")),
            calls := [query, .addSchedule scheduleData] }
        | some newTimetable =>
          let view1 := { view with timetable := newTimetable }
          let calls := [query, .addSchedule scheduleData, .updateRoomStatus form.roomId "busy"]
          match updateRoom sv db1 form.roomId fun r =>
              { r with status := some "busy", currentClass := some form.course,
                       updatedAt := some host.now } with
          | none =>
            { db := db1, view := view1, toast := some (.error ("Error: " ++ sv.errorMessage)),
              calls := calls }
          | some db2 =>
            { db := db2, view := { view1 with openDialog := false },
              toast := some (.success ("Class scheduled for " ++ view.department ++ " Department!")),
              calls := calls }

/-- The handler `handleSaveClass` run on its own: no other writer changes the
store between its conflict query and its add. -/
def handleSaveClass (host : Host) (sv : Service) (view : TimetableView) (db : Firestore) :
    DocRun TimetableView :=
  handleSaveClassAt host sv view db db

/-- The handler `handleConflictResolution`: the class is saved in the
alternative room, the conflict is logged, and the alternative room is marked. -/
def handleConflictResolution (host : Host) (sv : Service) (view : TimetableView)
    (alternativeRoomId : String) (db : Firestore) : DocRun TimetableView :=
  let form := view.formData
  if alternativeRoomId == "" then
    { db := db, view := view, toast := some (.error "Please select an alternative room"),
      calls := [] }
  else
    let scheduleData : ScheduleDoc :=
      { id := sv.newId, roomId := alternativeRoomId, course := form.course,
        professor := form.professor, day := form.day, period := form.period,
        department := view.department, year := view.year, section_ := view.section_,
        isActive := true, createdAt := host.now, conflictResolved := true,
        originalRoomId := some form.roomId }
    if sv.addFails then
      { db := db, view := view, toast := some (.error ("Error: " ++ sv.errorMessage)),
        calls := [.addSchedule scheduleData] }
    else
      let db1 := { db with schedules := db.schedules ++ [scheduleData] }
      let conflictData : ConflictDoc :=
        { roomId := form.roomId
          timeSlot := form.day ++ "_" ++ form.period
          conflictingDepartments :=
            (match view.conflictAlert with
             | some alert => alert.conflicts.map fun c => c.department
             | none => []) ++ [view.department]
          resolvedWith := alternativeRoomId
          status := "resolved"
          createdAt := host.now }
      if sv.addConflictFails then
        { db := db1, view := view, toast := some (.error ("Error: " ++ sv.errorMessage)),
          calls := [.addSchedule scheduleData, .addConflict conflictData] }
      else
        let db2 := { db1 with conflicts := db1.conflicts ++ [conflictData] }
        let entry : ClassEntry :=
          { roomId := alternativeRoomId, course := form.course, professor := form.professor,
            department := view.department, year := view.year, section_ := view.section_ }
        match setCell view.timetable form.day form.period entry with
        | none =>
          { db := db2, view := view,
            toast := some (.error ("Error: Cannot set properties of undefined (setting '"
              ++ form.period ++ "')")),
            calls := [.addSchedule scheduleData, .addConflict conflictData] }
        | some newTimetable =>
          let view1 := { view with timetable := newTimetable }
          let calls := [.addSchedule scheduleData, .addConflict conflictData,
            .updateRoomStatus alternativeRoomId "busy"]
          match updateRoom sv db2 alternativeRoomId fun r =>
              { r with status := some "busy", currentClass := some form.course,
                       updatedAt := some host.now } with
          | none =>
            { db := db2, view := view1, toast := some (.error ("Error: " ++ sv.errorMessage)),
              calls := calls }
          | some db3 =>
            { db := db3, view := { view1 with conflictAlert := none, openDialog := false },
              toast := some (.success
                ("Class scheduled in alternative room " ++ alternativeRoomId)),
              calls := calls }

/-- The call `updateDoc` on a schedule: it rejects when the document is missing. -/
def updateScheduleDoc (sv : Service) (db : Firestore) (id : String)
    (f : ScheduleDoc → ScheduleDoc) : Option Firestore :=
  if sv.updateScheduleFails || !db.schedules.any (fun s => s.id == id) then none
  else some { db with schedules := db.schedules.map fun s => if s.id == id then f s else s }

/-- The handler `confirmQuickCancel`; `classToCancel` is the schedule picked
from the list, `none` while nothing is picked. -/
def confirmQuickCancel (host : Host) (sv : Service) (classToCancel : Option ScheduleDoc)
    (db : Firestore) : DocRun Unit :=
  match classToCancel with
  | none =>
    { db := db, view := (),
      toast := some (.error "Error: Cannot read properties of null (reading 'id')"),
      calls := [] }
  | some cls =>
    match updateScheduleDoc sv db cls.id fun s =>
        { s with isActive := false, cancelled := true,
                 cancellationReason := some "Quick cancellation by admin",
                 cancelledAt := some host.now } with
    | none =>
      { db := db, view := (), toast := some (.error ("Error: " ++ sv.errorMessage)),
        calls := [.updateSchedule cls.id] }
    | some db1 =>
      let calls := [DocCall.updateSchedule cls.id, .updateRoomStatus cls.roomId "cancelled"]
      match updateRoom sv db1 cls.roomId fun r =>
          { r with status := some "cancelled", reason := some "Quick cancellation by admin",
                   cancelledAt := some host.now, updatedAt := some host.now } with
      | none =>
        { db := db1, view := (), toast := some (.error ("Error: " ++ sv.errorMessage)),
          calls := calls }
      | some db2 =>
        { db := db2, view := (), toast := some (.success "Class cancelled successfully!"),
          calls := calls }

/-- The characters `trim` removes: white space and line terminators. -/
def jsWhite (c : Char) : Bool :=
  [9, 10, 11, 12, 13, 32, 160, 5760, 8192, 8193, 8194, 8195, 8196, 8197, 8198, 8199, 8200,
   8201, 8202, 8232, 8233, 8239, 8287, 12288, 65279].contains c.toNat

/-- The method `s.trim()`. -/
def jsTrim (s : String) : String :=
  String.mk ((s.data.dropWhile jsWhite).reverse.dropWhile jsWhite).reverse

/-- The state of the `CancelClass` component the handler reads and sets. -/
structure CancelView where
  rooms : List RoomDoc
  selectedRoom : String
  reason : String
  deriving DecidableEq, Repr

/-- The handler `handleCancelClass`.  The room is looked up in the list the
component loaded earlier; the schedule updated is the first document the
query returns.  The reloads started at the end are reads and left out. -/
def handleCancelClass (host : Host) (sv : Service) (view : CancelView) (db : Firestore) :
    DocRun CancelView :=
  if view.selectedRoom == "" || jsTrim view.reason == "" then
    { db := db, view := view, toast := some (.error "Please select a room and provide reason"),
      calls := [] }
  else
    let roomCall := DocCall.updateRoomStatus view.selectedRoom "cancelled"
    match updateRoom sv db view.selectedRoom fun r =>
        { r with status := some "cancelled", reason := some view.reason,
                 cancelledAt := some host.now, updatedAt := some host.now } with
    | none =>
      { db := db, view := view, toast := some (.error ("Error: " ++ sv.errorMessage)),
        calls := [roomCall] }
    | some db1 =>
      let done : DocRun CancelView :=
        { db := db1, view := { view with selectedRoom := "", reason := "" },
          toast := some (.success "Class cancelled successfully! Room status updated in real-time."),
          calls := [roomCall] }
      match view.rooms.find? fun r => r.id == view.selectedRoom with
      | none => done
      | some room =>
        if !truthy room.currentClass then done
        else
          let query := DocCall.querySchedules view.selectedRoom none none
          if sv.queryFails then
            { db := db1, view := view, toast := some (.error ("Error: " ++ sv.errorMessage)),
              calls := [roomCall, query] }
          else
            match db1.schedules.filter fun s => s.roomId == view.selectedRoom && s.isActive with
            | [] => { done with calls := [roomCall, query] }
            | scheduleDoc :: _ =>
              let calls := [roomCall, query, DocCall.updateSchedule scheduleDoc.id]
              if sv.updateScheduleFails then
                { db := db1, view := view, toast := some (.error ("Error: " ++ sv.errorMessage)),
                  calls := calls }
              else
                { done with
                  db := { db1 with schedules := db1.schedules.map fun s =>
                    if s.id == scheduleDoc.id then
                      { s with isActive := false, cancelled := true,
                               cancellationReason := some view.reason,
                               cancelledAt := some host.now }
                    else s }
                  calls := calls }

/-- The handler `handleUpdateRoomStatus` of `AdminRoomAvailability.jsx`. -/
def handleUpdateRoomStatus (host : Host) (sv : Service) (roomId newStatus : String)
    (db : Firestore) : DocRun Unit :=
  match updateRoom sv db roomId fun r =>
      { r with status := some newStatus, updatedAt := some host.now } with
  | none =>
    { db := db, view := (), toast := some (.error "Failed to update room status"),
      calls := [.updateRoomStatus roomId newStatus] }
  | some db1 =>
    { db := db1, view := (), toast := some (.success ("Room status updated to " ++ newStatus)),
      calls := [.updateRoomStatus roomId newStatus] }

/-- The argument `room.status === 'free' ? 'occupied' : 'free'` of the two toggle buttons. -/
def toggledStatus (status : Option String) : String :=
  if status == some "free" then "occupied" else "free"

/-- The button "Toggle Status" (and "Mark Occupied" / "Mark Available") on one room. -/
def toggleRoomStatus (host : Host) (sv : Service) (room : RoomDoc) (db : Firestore) : DocRun Unit :=
  handleUpdateRoomStatus host sv room.id (toggledStatus room.status) db

/-- The button "Mark All as Available": every listed room whose status is
`occupied` is updated to `free`. -/
def markAllAvailable (host : Host) (sv : Service) : List RoomDoc → Firestore → Firestore × List DocCall
  | [], db => (db, [])
  | room :: rest, db =>
    if room.status == some "occupied" then
      let updated := handleUpdateRoomStatus host sv room.id "free" db
      let later := markAllAvailable host sv rest updated.db
      (later.1, updated.calls ++ later.2)
    else markAllAvailable host sv rest db

/-! ## `prepareRoomData` (`csvProcessor.js`)

The rows reaching `csvProcessor.js` are parsed with dynamic typing, so a cell
is a string, a number, a boolean or `null`.  The cell type is a parameter
together with the built-in operations the function applies to it. -/

/-- The built-in operations `prepareRoomData` applies to a cell. -/
structure CellOps (V : Type) where
  /-- Truthiness. -/
  truthy : V → Bool
  /-- Rendering inside a template literal. -/
  render : V → String
  /-- The value `parseInt(v)`, `none` for `NaN`. -/
  parseInt : V → Option Int
  /-- The string itself when the cell is a string. -/
  asString : V → Option String

/-- The columns `prepareRoomData` reads; `none` is an absent column. -/
structure RawRow (V : Type) where
  room_id : Option V := none
  room_name : Option V := none
  building : Option V := none
  capacity : Option V := none
  type : Option V := none
  features : Option V := none

/-- A record `prepareRoomData` returns: a field is the cell copied from the
row or the default string. -/
structure PreparedRoom (V : Type) where
  id : Option V
  name : V ⊕ String
  building : V ⊕ String
  capacity : Int
  type : V ⊕ String
  status : String
  features : List String
  createdAt : String

/-- The expression `cell || fallback`. -/
def cellOr {V : Type} (ops : CellOps V) (cell : Option V) (fallback : String) : V ⊕ String :=
  match cell with
  | some v => if ops.truthy v then .inl v else .inr fallback
  | none => .inr fallback

/-- A cell or `undefined` rendered inside a template literal. -/
def renderCell {V : Type} (ops : CellOps V) : Option V → String
  | some v => ops.render v
  | none => "undefined"

/-- The value of `features`: the trimmed non-empty parts of a truthy cell;
`split` on a truthy cell that is not a string throws a `TypeError`. -/
def prepareFeatures {V : Type} (ops : CellOps V) : Option V → Except String (List String)
  | none => .ok []
  | some v =>
    if ops.truthy v then
      match ops.asString v with
      | some s => .ok (((jsSplit s ',').map jsTrim).filter fun f => f != "")
      | none => .error "row.features.split is not a function"
    else .ok []

/-- The record built for one row. -/
def prepareRoom {V : Type} (host : Host) (ops : CellOps V) (row : RawRow V) :
    Except String (PreparedRoom V) :=
  match prepareFeatures ops row.features with
  | .error e => .error e
  | .ok fs =>
    .ok { id := row.room_id
          name := cellOr ops row.room_name ("Room " ++ renderCell ops row.room_id)
          building := cellOr ops row.building "Main Building"
          capacity :=
            match row.capacity.bind ops.parseInt with
            | some n => if n != 0 then n else 30
            | none => 30
          type := cellOr ops row.type "classroom"
          status := "free"
          features := fs
          createdAt := host.now }

/-- The loop of `prepareRoomData` over a `Map` keyed by
`${row.room_id}_${row.building}`: the first row of each key makes the record. -/
def prepareRoomLoop {V : Type} (host : Host) (ops : CellOps V) :
    List (RawRow V) → List (String × PreparedRoom V) → Except String (List (String × PreparedRoom V))
  | [], roomMap => .ok roomMap
  | row :: rest, roomMap =>
    let roomKey := renderCell ops row.room_id ++ "_" ++ renderCell ops row.building
    if roomMap.any (fun e => e.1 == roomKey) then prepareRoomLoop host ops rest roomMap
    else
      match prepareRoom host ops row with
      | .error e => .error e
      | .ok room => prepareRoomLoop host ops rest (roomMap ++ [(roomKey, room)])

/-- The function `prepareRoomData`. -/
def prepareRoomData {V : Type} (host : Host) (ops : CellOps V) (csvData : List (RawRow V)) :
    Except String (List (PreparedRoom V)) :=
  match prepareRoomLoop host ops csvData [] with
  | .error e => .error e
  | .ok roomMap => .ok (roomMap.map fun e => e.2)

/-! ## Reference notions the statements compare the code with -/

/-- The value of a decimal digit character. -/
def digitValue (c : Char) : Option Nat :=
  if c.isDigit then some (c.toNat - 48) else none

/-- Minutes since midnight of a clock time written `H:MM` or `HH:MM`. -/
def specClockMinutes (s : String) : Option Nat :=
  match s.data with
  | [h, ':', m1, m2] =>
    match digitValue h, digitValue m1, digitValue m2 with
    | some a, some b, some c => if b < 6 then some (a * 60 + b * 10 + c) else none
    | _, _, _ => none
  | [h1, h2, ':', m1, m2] =>
    match digitValue h1, digitValue h2, digitValue m1, digitValue m2 with
    | some a, some a', some b, some c =>
      if a * 10 + a' < 24 && b < 6 then some ((a * 10 + a') * 60 + b * 10 + c) else none
    | _, _, _, _ => none
  | _ => none

/-- A period of the form `H:MM-H:MM`: two clock times separated by a single `-`. -/
def specIsPeriod (p : String) : Bool :=
  match jsSplit p '-' with
  | [s, e] => (specClockMinutes s).isSome && (specClockMinutes e).isSome
  | _ => false

/-- Whether the half-open intervals `[s1, e1)` and `[s2, e2)` overlap. -/
def specIntervalsOverlap (s1 e1 s2 e2 : Nat) : Bool := s1 < e2 && s2 < e1

/-- Reading a digit list back as a number. -/
def readDecimal (cs : List Char) : Nat := cs.foldl (fun a c => 10 * a + (c.toNat - 48)) 0

/-- A row has all four required fields and a period containing `-`. -/
def rowComplete (row : CsvRow) : Bool :=
  truthy row.room_id && truthy row.course && truthy row.day && truthy row.period &&
    (match row.period with
     | some p => jsIncludes p '-'
     | none => false)

/-- The errors of the rows from index `i` on, in row order. -/
def allErrors : Nat → List CsvRow → List String
  | _, [] => []
  | i, row :: rest => rowErrors (i + 2) row ++ allErrors (i + 1) rest

/-- A message is tagged with row number `k` when it reads `Row k:` followed by some text. -/
def Tagged (k : Nat) (e : String) : Prop :=
  ∃ rest : List Char, e.data = (rowTag k).data ++ ':' :: rest

/-! ## Sample data -/

/-- An active booking of a room in the `schedules` table. -/
def booking (room day period : String) : Schedule :=
  { room_id := some room, room_name := "Room " ++ room, course_name := some "Mathematics",
    professor := "Staff", day := day, period := some period, start_time := "", end_time := "",
    department := "ECE", year := "2", section_ := "A", semester := "Fall 2024",
    is_active := true, created_at := "2024-08-01T00:00:00.000Z" }

/-- A CSV row with the five required columns filled. -/
def csvRow (room course day period : String) : CsvRow :=
  { room_id := some room, room_name := some ("Room " ++ room), course := some course,
    day := some day, period := some period }

/-- The importer's state on a fresh page: department CSE, resolution `skip`,
the validation dialog closed. -/
def freshUi : UiState :=
  { selectedDepartment := "CSE", conflictResolution := .skip, validationDialog := false,
    validationResults := none }

/-- A parsed file with the five required columns. -/
def csvFile (rows : List CsvRow) : ParsedCsv :=
  { name := "timetable.csv", fields := some ["room_id", "room_name", "course", "day", "period"],
    data := rows }

/-- A file whose only row lacks its course. -/
def incompleteFile : ParsedCsv := csvFile [csvRow "101" "" "Monday" "8:40-9:30"]

/-- Rooms 101 and 102 are booked on Monday at `8:40-9:30`. -/
def bookedStore : Store :=
  { schedules := [booking "101" "monday" "8:40-9:30", booking "102" "monday" "8:40-9:30"] }

/-- Three rows for Monday `8:40-9:30`: rooms 101 and 102 (both booked) and 103 (free). -/
def threeRows : List CsvRow :=
  [csvRow "101" "Algorithms" "Monday" "8:40-9:30",
   csvRow "102" "Databases" "Monday" "8:40-9:30",
   csvRow "103" "Chemistry" "Monday" "8:40-9:30"]

/-- The schedule document of a class held in a room at a day and period. -/
def heldClass (id room day period : String) : ScheduleDoc :=
  { id := id, roomId := room, course := "Mathematics", professor := "Dr. Iyer", day := day,
    period := period, department := "ECE", year := "2", section_ := "A", isActive := true,
    createdAt := "2024-08-01T00:00:00.000Z" }

/-- A document store in which room 101 is taken on Monday at `8:40-9:30`. -/
def takenDb : Firestore :=
  { schedules := [heldClass "s1" "101" "Monday" "8:40-9:30"]
    rooms := [{ id := "101", name := "Room 101", building := "Main Building",
                status := some "busy", currentClass := some "Mathematics" }] }

/-- The scheduling dialog of the CSE department filled in for a room, day and period. -/
def filledView (room professor day period : String) : TimetableView :=
  { department := "CSE", year := "3", section_ := "A"
    formData := { roomId := room, course := "Algorithms", professor := professor, day := day,
                  period := period }
    timetable := [("Monday", [("8:40-9:30", none), ("9:30-10:20", none)])] }

/-- The slot of the form is taken: the collection holds an active schedule
with the form's room, day and period. -/
def slotTaken (view : TimetableView) (db : Firestore) : Prop :=
  ∃ s ∈ db.schedules, s.roomId = view.formData.roomId ∧ s.day = view.formData.day ∧
    s.period = view.formData.period ∧ s.isActive = true

/-- A file with one row for the lab `EEE_LAB`. -/
def labFile : ParsedCsv := csvFile [csvRow "EEE_LAB" "Machines Lab" "Monday" "8:40-9:30"]

/-- The room record the importer sends for the key `EEE_LAB_CSE`. -/
def splitLabRecord : RoomRecord :=
  { id := "EEE", name := "Room EEE", building := "Main Building", capacity := 30,
    department := some "LAB", type := "classroom", status := "available",
    created_at := asciiHost.now, updated_at := asciiHost.now }

/-- A file with one row whose period names no clock time. -/
def wordsFile : ParsedCsv := csvFile [csvRow "101" "Algorithms" "Monday" "morning-evening"]

/-- The four status values the data model names. -/
def namedStatuses : List String := ["free", "busy", "occupied", "cancelled"]

/-- A file with one row for room 101. -/
def oneRoomFile : ParsedCsv := csvFile [csvRow "101" "Algorithms" "Monday" "8:40-9:30"]

/-- A file whose header lacks `room_name` and `day`. -/
def shortHeaderFile : ParsedCsv :=
  { name := "timetable.csv", fields := some ["room_id", "course", "period"],
    data := [{ room_id := some "101", course := some "Algorithms", period := some "8:40-9:30" }] }

/-- An upload of one row for room 101 on Monday at `8:40-9:30`. -/
def firstSession : Session :=
  { ui := freshUi, file := csvFile [csvRow "101" "Algorithms" "Monday" "8:40-9:30"] }

/-- Another upload of one row for the same room, day and period. -/
def secondSession : Session :=
  { ui := { freshUi with selectedDepartment := "ECE" }
    file := csvFile [csvRow "101" "Signals" "Monday" "8:40-9:30"] }

/-! ## `validateCSVData` of `csvProcessor.js` -/

/-- The constant `requiredColumns` of `csvProcessor.js`. -/
def processorColumns : List String :=
  ["room_id", "room_name", "building", "capacity", "course", "professor", "day", "period"]

/-- The value `Object.keys(data[0] || {})`: a row is the list of its own
properties, `none` is an entry that is `null`; an empty array has no first
row.  (The order of the keys plays no part: they are only searched.) -/
def firstRowKeys {V : Type} (data : List (Option (List (String × V)))) : List String :=
  match data with
  | some row :: _ => row.map fun property => property.1
  | _ => []

namespace csvProcessor

/-- The function `validateCSVData` of `csvProcessor.js`: `.ok true` is the
returned `true`, `.error m` the thrown `Error` with message `m`. -/
def validateCSVData {V : Type} (data : List (Option (List (String × V)))) : Except String Bool :=
  let headers := firstRowKeys data
  let missingColumns := processorColumns.filter fun col => !headers.contains col
  if missingColumns.length > 0 then
    .error ("Missing required columns: " ++ jsJoin ", " missingColumns)
  else .ok true

end csvProcessor

/-! ## The login form (`Login.jsx`) and the sign-in service (`AuthContext.jsx`) -/

/-- The state of the login form. -/
structure LoginForm where
  email : String
  password : String
  userType : String
  department : String
  deriving DecidableEq, Repr

/-- What `handleLogin` shows and where it navigates a second later:
the route and, for the admin area, the department passed as state. -/
structure LoginResult where
  toast : Toast
  navigate : Option (String × Option String)
  deriving DecidableEq, Repr

/-- The handler `handleLogin`. -/
def handleLogin (form : LoginForm) : LoginResult :=
  if form.email == "" || form.password == "" then
    { toast := .error "Please enter email and password", navigate := none }
  else if form.userType == "admin" && form.department == "" then
    { toast := .error "Please select your department", navigate := none }
  else
    { toast := .success "Login successful! Redirecting...",
      navigate :=
        if form.userType == "admin" then some ("/admin", some form.department)
        else some ("/student", none) }

/-- The answer of `signInWithEmailAndPassword`: the signed-in user, or the
message of the rejection. -/
abbrev SignIn := String → String → Except String String

/-- The value `login` of `AuthContext.jsx` resolves to. -/
structure LoginAnswer where
  success : Bool
  user : Option String := none
  error : Option String := none
  deriving DecidableEq, Repr

/-- The function `login` of `AuthContext.jsx`. -/
def login (signIn : SignIn) (email password : String) : LoginAnswer :=
  match signIn email password with
  | .ok user => { success := true, user := some user }
  | .error message => { success := false, error := some message }

/-- A sign-in service that knows one account. -/
def campusSignIn : SignIn := fun email password =>
  if email == "cse_admin@campus.edu" && password == "admin123" then .ok "cse_admin"
  else .error "Firebase: Error (auth/invalid-credential)."

/-! ## Room availability for students (`RoomAvailability.jsx`) -/

/-- JavaScript `a < b` where each side is a string or `undefined`. -/
def jsLt : Option String → Option String → Bool
  | some a, some b => strLt a b
  | _, _ => false

/-- Two decimal digits of a number below one hundred. -/
def pad2 (n : Nat) : String := String.mk [digitChar (n / 10 % 10), digitChar (n % 10)]

/-- The value `currentTime.toTimeString().slice(0, 5)`: the local hours and
minutes on the 24-hour clock, written `HH:MM`. -/
def timeString (hours minutes : Nat) : String := pad2 hours ++ ":" ++ pad2 minutes

/-- An entry of `schedulesMap`. -/
structure RoomSlot where
  schedules : List Schedule := []
  currentSchedule : Option Schedule := none
  nextSchedule : Option Schedule := none
  isCurrentlyOccupied : Bool := false
  nextAvailableTime : String := "Free for the day"
  scheduleCount : Nat := 0
  deriving DecidableEq, Repr

/-- The property name a room id is stored under; a `null` id reads `null`. -/
def slotKey : Option String → String
  | some r => r
  | none => "null"

/-- Inserting a schedule into a list ordered by `start_time`. -/
def insertByStartTime (le : String → String → Bool) (s : Schedule) : List Schedule → List Schedule
  | [] => [s]
  | t :: ts =>
    if le s.start_time t.start_time then s :: t :: ts else t :: insertByStartTime le s ts

/-- The query `.eq('day', d).eq('is_active', true).order('start_time')` on
`schedules`; `le` is the order the store puts text in. -/
def selectDaySchedules (le : String → String → Bool) (st : Store) (day : String) : List Schedule :=
  (st.schedules.filter fun s => s.day == day && s.is_active).foldr (insertByStartTime le) []

/-- What one schedule does to the entry of its room: it is listed and
counted, and marked current or next by comparing the clock strings. -/
def noteInSlot (selectedDay currentDay currentTimeStr : String) (slot0 : RoomSlot)
    (schedule : Schedule) : RoomSlot :=
  let slot1 : RoomSlot :=
    { slot0 with schedules := slot0.schedules ++ [schedule],
                 scheduleCount := slot0.scheduleCount + 1 }
  let parts :=
    match schedule.period with
    | some p => jsSplit p '-'
    | none => ["09:00", "10:00"]
  let start := parts[0]?
  let finish := parts[1]?
  let slot2 : RoomSlot :=
    if selectedDay == currentDay && jsGe (some currentTimeStr) start
        && jsLt (some currentTimeStr) finish then
      { slot1 with currentSchedule := some schedule, isCurrentlyOccupied := true }
    else slot1
  if selectedDay == currentDay && slot2.nextSchedule.isNone
      && jsLt (some currentTimeStr) start then
    { slot2 with nextSchedule := some schedule,
                 nextAvailableTime := "Free until " ++ render start }
  else slot2

/-- The body of `schedules.forEach` in `fetchRoomSchedules`, `none` when it
throws.  `schedulesMap` is a plain object: a room id it has no entry for
reads `undefined` and gets a fresh entry, unless the id names an inherited
property; that reads truthy, no entry is made, and `.schedules.push` throws a
`TypeError`. -/
def noteSchedule (selectedDay currentDay currentTimeStr : String)
    (schedulesMap : List (String × RoomSlot)) (schedule : Schedule) :
    Option (List (String × RoomSlot)) :=
  let roomId := slotKey schedule.room_id
  match schedulesMap.lookup roomId with
  | some slot =>
    some (setKey roomId (noteInSlot selectedDay currentDay currentTimeStr slot schedule)
      schedulesMap)
  | none =>
    if inheritedNames.contains roomId then none
    else
      some (setKey roomId (noteInSlot selectedDay currentDay currentTimeStr {} schedule)
        schedulesMap)

/-- The loop `schedules.forEach`, which ends at the first schedule that throws. -/
def noteSchedules (selectedDay currentDay currentTimeStr : String) :
    List Schedule → List (String × RoomSlot) → Option (List (String × RoomSlot))
  | [], schedulesMap => some schedulesMap
  | schedule :: rest, schedulesMap =>
    match noteSchedule selectedDay currentDay currentTimeStr schedulesMap schedule with
    | none => none
    | some next => noteSchedules selectedDay currentDay currentTimeStr rest next

/-- The function `fetchRoomSchedules`: the new value of `roomSchedules`, or
`none` when the state is left as it was (no day selected, the query failed,
or the loop threw before `setRoomSchedules`). -/
def fetchRoomSchedules (le : String → String → Bool) (queryFails : Bool)
    (selectedDay currentDay : String) (hours minutes : Nat) (st : Store) :
    Option (List (String × RoomSlot)) :=
  if selectedDay == "" then none
  else if queryFails then none
  else
    noteSchedules selectedDay currentDay (timeString hours minutes)
      (selectDaySchedules le st selectedDay) []

/-- The order of strings by code units. -/
def unitOrder (a b : String) : Bool := !strLt b a

/-- Room 101 holds a class on Monday at `8:40-9:30`. -/
def mondayStore : Store :=
  { schedules := [{ booking "101" "monday" "8:40-9:30" with
                    start_time := "8:40", end_time := "9:30" }] }

/-- The importer's state with the resolution `override` chosen. -/
def overrideUi : UiState := { freshUi with conflictResolution := .override }

/-- Room 101 is booked on Monday at `8:40-9:30`. -/
def bookedOnce : Store := { schedules := [booking "101" "monday" "8:40-9:30"] }

/-- Room 101 holds Mathematics on Monday and Physics on Tuesday; its current
class is Physics. -/
def twoClassDb : Firestore :=
  { schedules := [heldClass "s1" "101" "Monday" "8:40-9:30",
                  { heldClass "s2" "101" "Tuesday" "9:30-10:20" with course := "Physics" }]
    rooms := [{ id := "101", name := "Room 101", building := "Main Building",
                status := some "busy", currentClass := some "Physics" }] }

/-- The cancellation form filled in for room 101. -/
def cancelForm : CancelView :=
  { rooms := twoClassDb.rooms, selectedRoom := "101", reason := "Faculty unavailable" }

/-- The login form of the CSE admin with a given password. -/
def adminForm (password : String) : LoginForm :=
  { email := "cse_admin@campus.edu", password := password, userType := "admin",
    department := "CSE" }

end SmartCampus

/-! # Theorems -/

namespace SmartCampus

/-! ## Decimal rendering and row tags -/

theorem digitChar_toNat (d : Nat) (h : d < 10) : (digitChar d).toNat = 48 + d := by
  interval_cases d <;> rfl

theorem digitChar_ne_colon (d : Nat) (h : d < 10) : digitChar d ≠ ':' := by
  interval_cases d <;> decide

theorem decimalCore_append (fuel : Nat) : ∀ (n : Nat) (acc : List Char),
    decimalCore fuel n acc = decimalCore fuel n [] ++ acc := by
  induction fuel with
  | zero => intro n acc; simp [decimalCore]
  | succ f ih =>
    intro n acc
    by_cases h : n < 10
    · simp [decimalCore, h]
    · simp only [decimalCore, h, if_false]
      rw [ih (n / 10) (digitChar (n % 10) :: acc), ih (n / 10) [digitChar (n % 10)]]
      simp

theorem readDecimal_decimalCore (fuel : Nat) : ∀ n : Nat, n < fuel →
    readDecimal (decimalCore fuel n []) = n := by
  induction fuel with
  | zero => intro n h; omega
  | succ f ih =>
    intro n hn
    by_cases h : n < 10
    · simp [decimalCore, h, readDecimal, digitChar_toNat n h]
    · simp only [decimalCore, h, if_false]
      rw [decimalCore_append]
      have h1 : n / 10 < f := by omega
      have h2 := ih (n / 10) h1
      unfold readDecimal at h2 ⊢
      rw [List.foldl_append, h2]
      simp [digitChar_toNat (n % 10) (Nat.mod_lt _ (by decide))]
      omega

theorem decimalCore_no_colon (fuel : Nat) : ∀ (n : Nat) (acc : List Char),
    ':' ∉ acc → ':' ∉ decimalCore fuel n acc := by
  induction fuel with
  | zero => intro n acc h; simpa [decimalCore] using h
  | succ f ih =>
    intro n acc hacc
    by_cases h : n < 10
    · simp only [decimalCore, h, if_true, List.mem_cons, not_or]
      exact ⟨(digitChar_ne_colon n h).symm, hacc⟩
    · simp only [decimalCore, h, if_false]
      apply ih
      simp only [List.mem_cons, not_or]
      exact ⟨(digitChar_ne_colon _ (Nat.mod_lt _ (by decide))).symm, hacc⟩

theorem numToString_injective (n m : Nat) (h : (numToString n).data = (numToString m).data) :
    n = m := by
  have hn := readDecimal_decimalCore (n + 1) n (by omega)
  have hm := readDecimal_decimalCore (m + 1) m (by omega)
  simp only [numToString] at h
  rw [← hn, ← hm, h]

theorem numToString_no_colon (n : Nat) : ':' ∉ (numToString n).data := by
  simp only [numToString]
  exact decimalCore_no_colon _ _ _ (by simp)

theorem prefix_sep_unique {α : Type} (sep : α) : ∀ (xs ys t : List α),
    sep ∉ xs → sep ∉ ys → xs ++ [sep] <+: ys ++ sep :: t → xs = ys := by
  intro xs
  induction xs with
  | nil =>
    intro ys t _ hy h
    cases ys with
    | nil => rfl
    | cons y ys =>
      simp only [List.nil_append, List.cons_append, List.cons_prefix_cons] at h
      exact absurd (h.1 ▸ List.mem_cons_self _ _) hy
  | cons x xs ih =>
    intro ys t hx hy h
    cases ys with
    | nil =>
      simp only [List.nil_append, List.cons_append, List.cons_prefix_cons] at h
      exact absurd (h.1 ▸ List.mem_cons_self _ _) hx
    | cons y ys =>
      simp only [List.cons_append, List.cons_prefix_cons] at h
      have hx' : sep ∉ xs := fun hm => hx (List.mem_cons_of_mem _ hm)
      have hy' : sep ∉ ys := fun hm => hy (List.mem_cons_of_mem _ hm)
      rw [h.1, ih ys t hx' hy' h.2]

theorem rowTag_data (k : Nat) : (rowTag k).data = "Row ".data ++ (numToString k).data := by
  simp [rowTag]

theorem startsWith_tag_iff (k n : Nat) (e : String) (h : Tagged k e) :
    jsStartsWith e (rowTag n ++ ":") = true ↔ k = n := by
  obtain ⟨rest, hrest⟩ := h
  unfold jsStartsWith
  rw [List.isPrefixOf_iff_prefix, hrest, String.data_append, rowTag_data, rowTag_data]
  have hc : (":" : String).data = [':'] := rfl
  rw [hc, List.append_assoc, List.append_assoc, List.prefix_append_right_inj]
  constructor
  · intro hp
    have := prefix_sep_unique ':' _ _ rest (numToString_no_colon n) (numToString_no_colon k) hp
    exact (numToString_injective n k this).symm
  · intro hk
    subst hk
    exact ⟨rest, by simp⟩

theorem rowErrors_tagged (n : Nat) (row : CsvRow) : ∀ e ∈ rowErrors n row, Tagged n e := by
  intro e he
  unfold rowErrors at he
  simp only [List.mem_append] at he
  rcases he with (((he | he) | he) | he) | he
  · split at he
    · simp only [List.mem_singleton] at he
      exact ⟨" Missing room_id".data, by rw [he]; rfl⟩
    · simp at he
  · split at he
    · simp only [List.mem_singleton] at he
      exact ⟨" Missing course".data, by rw [he]; rfl⟩
    · simp at he
  · split at he
    · simp only [List.mem_singleton] at he
      exact ⟨" Missing day".data, by rw [he]; rfl⟩
    · simp at he
  · split at he
    · simp only [List.mem_singleton] at he
      exact ⟨" Missing period".data, by rw [he]; rfl⟩
    · simp at he
  · split at he
    · split at he
      · simp only [List.mem_singleton] at he
        exact ⟨" Invalid period format (should be like \"8:40-9:30\")".data, by rw [he]; rfl⟩
      · simp at he
    · simp at he

theorem rowErrors_eq_nil_iff (n : Nat) (row : CsvRow) :
    rowErrors n row = [] ↔ rowComplete row = true := by
  rcases row with ⟨rid, rname, course, prof, day, period, dept, yr, sec, sem, st, et, cap⟩
  cases period with
  | none => simp [rowErrors, rowComplete, truthy]
  | some p =>
    have hp : ∀ q : String, truthy (some q) = (q != "") := fun _ => rfl
    by_cases h1 : truthy rid <;> by_cases h2 : truthy course <;> by_cases h3 : truthy day <;>
      by_cases h4 : p = "" <;> by_cases h5 : jsIncludes p '-' <;>
      simp [rowErrors, rowComplete, hp, h1, h2, h3, h4, h5]

theorem validateLoop_errors (host : Host) (be : Backend) (st : Store) (rows : List CsvRow) :
    ∀ (i : Nat) (acc : Validation × List Call),
      (validateLoop host be st i rows acc).1.errors = acc.1.errors ++ allErrors i rows := by
  induction rows with
  | nil => intro i acc; simp [validateLoop, allErrors]
  | cons row rest ih =>
    intro i acc
    simp only [validateLoop, allErrors]
    rw [ih]
    simp [validateRow]

theorem mem_allErrors (e : String) (rows : List CsvRow) : ∀ i : Nat,
    e ∈ allErrors i rows ↔ ∃ j row, rows[j]? = some row ∧ e ∈ rowErrors (i + j + 2) row := by
  induction rows with
  | nil => intro i; simp [allErrors]
  | cons r rest ih =>
    intro i
    simp only [allErrors, List.mem_append, ih]
    constructor
    · rintro (h | ⟨j, row, hj, he⟩)
      · exact ⟨0, r, by simp, by simpa using h⟩
      · exact ⟨j + 1, row, by simpa using hj, by
          have : i + (j + 1) + 2 = i + 1 + j + 2 := by omega
          rw [this]; exact he⟩
    · rintro ⟨j, row, hj, he⟩
      cases j with
      | zero =>
        simp only [List.getElem?_cons_zero, Option.some.injEq] at hj
        subst hj
        exact Or.inl (by simpa using he)
      | succ j =>
        simp only [List.getElem?_cons_succ] at hj
        refine Or.inr ⟨j, row, hj, ?_⟩
        have : i + (j + 1) + 2 = i + 1 + j + 2 := by omega
        rw [this] at he; exact he

theorem any_startsWith_eq (errors : List String) (i : Nat) (row : CsvRow)
    (hacc : ∀ e ∈ errors, ∃ k, k < i + 2 ∧ Tagged k e) :
    (errors ++ rowErrors (i + 2) row).any (fun e => jsStartsWith e (rowTag (i + 2) ++ ":"))
      = !rowComplete row := by
  by_cases hc : rowComplete row = true
  · have hnil := (rowErrors_eq_nil_iff (i + 2) row).2 hc
    rw [hnil, hc, List.append_nil]
    simp only [Bool.not_true, List.any_eq_false]
    intro e he
    obtain ⟨k, hk, ht⟩ := hacc e he
    intro hs
    have := (startsWith_tag_iff k (i + 2) e ht).1 hs
    omega
  · have hne : rowErrors (i + 2) row ≠ [] := fun h => hc ((rowErrors_eq_nil_iff (i + 2) row).1 h)
    obtain ⟨e, he⟩ := List.exists_mem_of_ne_nil _ hne
    have hc' : rowComplete row = false := by simpa using hc
    rw [hc']
    simp only [Bool.not_false, List.any_eq_true]
    exact ⟨e, List.mem_append_right _ he,
      (startsWith_tag_iff (i + 2) (i + 2) e (rowErrors_tagged _ _ e he)).2 rfl⟩

theorem validateLoop_validRows (host : Host) (be : Backend) (st : Store) (rows : List CsvRow) :
    ∀ (i : Nat) (acc : Validation × List Call),
      (∀ e ∈ acc.1.errors, ∃ k, k < i + 2 ∧ Tagged k e) →
      (validateLoop host be st i rows acc).1.validRows
        = acc.1.validRows ++ rows.filter rowComplete := by
  induction rows with
  | nil => intro i acc _; simp [validateLoop]
  | cons row rest ih =>
    intro i acc hacc
    simp only [validateLoop]
    rw [ih]
    · simp only [validateRow, any_startsWith_eq acc.1.errors i row hacc, Bool.not_not]
      by_cases hc : rowComplete row = true
      · simp [hc]
      · simp [hc]
    · intro e he
      simp only [validateRow, List.mem_append] at he
      rcases he with he | he
      · obtain ⟨k, hk, ht⟩ := hacc e he
        exact ⟨k, by omega, ht⟩
      · exact ⟨i + 2, by omega, rowErrors_tagged _ _ e he⟩

theorem validateCSVData_errors (host : Host) (be : Backend) (st : Store) (rows : List CsvRow) :
    (validateCSVData host be st rows).1.errors = allErrors 0 rows := by
  simp [validateCSVData, validateLoop_errors]

theorem validateCSVData_validRows (host : Host) (be : Backend) (st : Store)
    (rows : List CsvRow) :
    (validateCSVData host be st rows).1.validRows = rows.filter rowComplete := by
  unfold validateCSVData
  rw [validateLoop_validRows]
  · simp
  · intro e he
    simp at he

/-! ## C1: the overlap test of the conflict check -/

/-- C1 (defect in the code): a row for room 101 on Monday at `9:30-10:20` is
checked against the stored active booking of room 101 on Monday at
`9:30-10:20`.  The query returns that booking, the two intervals are the same
fifty minutes (570 to 620 minutes after midnight) and so overlap, yet
`validateCSVData` records no `roomConflicts` entry: the test compares the
clock times as strings, and `"10:20" <= "9:30"` holds character by character. -/
theorem validateCSVData_misses_same_period :
    selectSchedules plainBackend { schedules := [booking "101" "monday" "9:30-10:20"] }
        "101" (asciiHost.toLowerCase "Monday")
      = some [booking "101" "monday" "9:30-10:20"] ∧
    specClockMinutes "9:30" = some 570 ∧ specClockMinutes "10:20" = some 620 ∧
    specIntervalsOverlap 570 620 570 620 = true ∧
    jsLe (some "10:20") (some "9:30") = true ∧
    (validateCSVData asciiHost plainBackend
        { schedules := [booking "101" "monday" "9:30-10:20"] }
        [csvRow "101" "Algorithms" "Monday" "9:30-10:20"]).1.roomConflicts = [] := by
  decide

/-! ## C2: which rows `validateCSVData` keeps -/

/-- C2: for every list of parsed rows, `validRows` is the order-preserving
sub-list of the rows whose `room_id`, `course`, `day` and `period` are all
non-empty and whose period contains `-`; and the row at index `i` is left out
exactly when some returned error message starts with `Row (i+2):`. -/
theorem validateCSVData_validRows_spec (host : Host) (be : Backend) (st : Store)
    (rows : List CsvRow) :
    (validateCSVData host be st rows).1.validRows = rows.filter rowComplete ∧
    ∀ (i : Nat) (row : CsvRow), rows[i]? = some row →
      (rowComplete row = false ↔
        ∃ e ∈ (validateCSVData host be st rows).1.errors,
          jsStartsWith e ("Row " ++ numToString (i + 2) ++ ":") = true) := by
  refine ⟨validateCSVData_validRows host be st rows, ?_⟩
  intro i row hrow
  rw [validateCSVData_errors]
  constructor
  · intro hc
    have hne : rowErrors (i + 2) row ≠ [] := by
      intro h
      rw [(rowErrors_eq_nil_iff (i + 2) row).1 h] at hc
      exact Bool.noConfusion hc
    obtain ⟨e, he⟩ := List.exists_mem_of_ne_nil _ hne
    refine ⟨e, (mem_allErrors e rows 0).2 ⟨i, row, hrow, by simpa using he⟩, ?_⟩
    exact (startsWith_tag_iff (i + 2) (i + 2) e (rowErrors_tagged _ _ e he)).2 rfl
  · rintro ⟨e, he, hs⟩
    obtain ⟨j, row', hj, he'⟩ := (mem_allErrors e rows 0).1 he
    have hji : 0 + j + 2 = i + 2 :=
      (startsWith_tag_iff (0 + j + 2) (i + 2) e (rowErrors_tagged _ _ e he')).1 hs
    have hij : j = i := by omega
    subst hij
    rw [hrow] at hj
    cases hj
    by_contra hc
    have hc' : rowComplete row = true := by simpa using hc
    rw [(rowErrors_eq_nil_iff _ row).2 hc'] at he'
    simp at he'

/-! ## C3: validation errors stop the upload before any write -/

theorem rowConflicts_reads (host : Host) (be : Backend) (st : Store) (n : Nat) (row : CsvRow) :
    ∀ c ∈ (rowConflicts host be st n row).1, c.isWrite = false := by
  intro c hc
  unfold rowConflicts at hc
  split at hc
  · split at hc
    · simp only [List.mem_singleton] at hc
      rw [hc]; rfl
    · simp at hc
  · simp at hc

theorem validateLoop_reads (host : Host) (be : Backend) (st : Store) (rows : List CsvRow) :
    ∀ (i : Nat) (acc : Validation × List Call),
      (∀ c ∈ acc.2, c.isWrite = false) →
      ∀ c ∈ (validateLoop host be st i rows acc).2, c.isWrite = false := by
  induction rows with
  | nil => intro i acc h; simpa [validateLoop] using h
  | cons row rest ih =>
    intro i acc h
    simp only [validateLoop]
    apply ih
    intro c hc
    simp only [validateRow, List.mem_append] at hc
    rcases hc with hc | hc
    · exact h c hc
    · exact rowConflicts_reads host be st _ row c hc

theorem validateCSVData_reads (host : Host) (be : Backend) (st : Store) (rows : List CsvRow) :
    ∀ c ∈ (validateCSVData host be st rows).2, c.isWrite = false := by
  unfold validateCSVData
  apply validateLoop_reads
  intro c hc
  simp at hc

/-- C3: when `validateCSVData` reports at least one error for the uploaded
rows, `handleFileUpload` ends in failure, leaves the store as it was and sends
no insert into `schedules`, no upsert into `rooms` or `department_timetables`
and no `timetable_files` insert (every call it sent is a read); once the
column check has let the rows through to validation, the failure message is
`Found N validation errors` with `N` the number of errors. -/
theorem handleFileUpload_stops_on_errors (host : Host) (be : Backend) (ui : UiState)
    (file : ParsedCsv) (st : Store)
    (herr : (validateCSVData host be st file.data).1.errors ≠ []) :
    (handleFileUpload host be ui (some file) st).store = st ∧
    (∀ c ∈ (handleFileUpload host be ui (some file) st).calls, c.isWrite = false) ∧
    (∃ message, (handleFileUpload host be ui (some file) st).outcome = .failed message) ∧
    (missingColumns file.fields = [] →
      (handleFileUpload host be ui (some file) st).outcome =
        .failed ("Found " ++
          numToString (validateCSVData host be st file.data).1.errors.length ++
          " validation errors")) := by
  have hlen : (validateCSVData host be st file.data).1.errors.length > 0 :=
    List.length_pos.2 herr
  have hdata : (file.data.length == 0) = false := by
    cases hd : file.data with
    | nil => rw [hd] at herr; exact absurd rfl herr
    | cons r rs => rfl
  by_cases hmiss : (missingColumns file.fields).length > 0
  · have hne : missingColumns file.fields ≠ [] := List.length_pos.1 hmiss
    simp [handleFileUpload, checkUpload, hdata, hmiss, hne]
  · have hnil : missingColumns file.fields = [] := by
      cases h : missingColumns file.fields with
      | nil => rfl
      | cons a b => rw [h] at hmiss; simp at hmiss
    simp only [handleFileUpload, checkUpload, hdata, hmiss, hlen, if_true, if_false,
      Bool.false_eq_true, decide_True, decide_False]
    exact ⟨trivial, validateCSVData_reads host be st file.data, ⟨_, rfl⟩, fun _ => trivial⟩

/-- C3, at a concrete upload: a file whose only row has an empty course. -/
theorem handleFileUpload_stops_on_errors_witness :
    (validateCSVData asciiHost plainBackend {} incompleteFile.data).1.errors ≠ [] ∧
    (handleFileUpload asciiHost plainBackend freshUi (some incompleteFile) {}).store = {} ∧
    (handleFileUpload asciiHost plainBackend freshUi (some incompleteFile) {}).outcome =
      .failed "Found 1 validation errors" :=
  ⟨by decide,
   (handleFileUpload_stops_on_errors asciiHost plainBackend freshUi incompleteFile {}
      (by decide)).1,
   by
     rw [(handleFileUpload_stops_on_errors asciiHost plainBackend freshUi incompleteFile {}
       (by decide)).2.2.2 (by decide)]
     decide⟩

/-! ## C4: conflict resolution `skip` -/

/-- C4 (defect in the code): with resolution `skip`, three valid rows of
which the first two (rows 2 and 3) conflict with stored bookings and the
third does not.  `validateCSVData` keeps all three rows and records one
conflict for row 2 and one for row 3; `resolveConflicts` then returns the
second row alone: the first `splice` shifts the rows, so the second `splice`
removes the conflict-free third row and the conflicting second row stays. -/
theorem resolveConflicts_skip_drops_wrong_row :
    (validateCSVData asciiHost plainBackend bookedStore threeRows).1.errors = [] ∧
    (validateCSVData asciiHost plainBackend bookedStore threeRows).1.validRows = threeRows ∧
    (validateCSVData asciiHost plainBackend bookedStore threeRows).1.roomConflicts.map
        (fun c => c.row) = [2, 3] ∧
    resolveConflicts .skip
        (validateCSVData asciiHost plainBackend bookedStore threeRows).1.roomConflicts
        (validateCSVData asciiHost plainBackend bookedStore threeRows).1.validRows
      = [csvRow "102" "Databases" "Monday" "8:40-9:30"] := by
  decide

/-! ## C5: the conflict guard of `handleSaveClass` -/

theorem checkRoomConflicts_ne_nil (sv : Service) (view : TimetableView) (db : Firestore)
    (hq : sv.queryFails = false) (ht : slotTaken view db) :
    checkRoomConflicts sv db view.formData.roomId view.formData.day view.formData.period ≠ [] := by
  obtain ⟨s, hs, h1, h2, h3, h4⟩ := ht
  intro h
  have hmem : s ∈ checkRoomConflicts sv db view.formData.roomId view.formData.day
      view.formData.period := by
    simp only [checkRoomConflicts, hq, Bool.false_eq_true, if_false, List.mem_filter]
    exact ⟨hs, by simp [h1, h2, h3, h4]⟩
  rw [h] at hmem
  simp at hmem

theorem checkRoomConflicts_eq_nil (sv : Service) (view : TimetableView) (db : Firestore)
    (h : sv.queryFails = true ∨ ¬ slotTaken view db) :
    checkRoomConflicts sv db view.formData.roomId view.formData.day view.formData.period = [] := by
  unfold checkRoomConflicts
  split
  · rfl
  · rename_i hq
    rcases h with h | h
    · exact absurd h hq
    · rw [List.filter_eq_nil_iff]
      intro s hs hcond
      simp only [Bool.and_eq_true, beq_iff_eq] at hcond
      exact h ⟨s, hs, hcond.1.1.1, hcond.1.1.2, hcond.1.2, hcond.2⟩

/-- What `handleSaveClassAt` leaves in `schedules` once the form is filled
in and the conflict check has found nothing: the store at the add, with the
new schedule appended when the add is accepted. -/
theorem handleSaveClassAt_schedules (host : Host) (sv : Service) (view : TimetableView)
    (dbq dba : Firestore)
    (hguard : (view.formData.roomId == "" || view.formData.course == "" ||
      view.formData.professor == "") = false)
    (hnil : checkRoomConflicts sv dbq view.formData.roomId view.formData.day
      view.formData.period = [])
    (hadd : sv.addFails = false) :
    (handleSaveClassAt host sv view dbq dba).db.schedules = dba.schedules ++
      [{ id := sv.newId, roomId := view.formData.roomId, course := view.formData.course,
         professor := view.formData.professor, day := view.formData.day,
         period := view.formData.period, department := view.department, year := view.year,
         section_ := view.section_, isActive := true, createdAt := host.now }] ∧
    (handleSaveClassAt host sv view dbq dba).view.conflictAlert = view.conflictAlert := by
  simp only [handleSaveClassAt, hguard, hnil, hadd, List.length_nil, gt_iff_lt,
    lt_self_iff_false, if_false, Bool.false_eq_true]
  cases hcell : setCell view.timetable view.formData.day view.formData.period
      { roomId := view.formData.roomId, course := view.formData.course,
        professor := view.formData.professor, department := view.department,
        year := view.year, section_ := view.section_ } with
  | none => exact ⟨rfl, rfl⟩
  | some newTimetable =>
    simp only []
    cases hu : updateRoom sv { dba with schedules := dba.schedules ++ _ }
        view.formData.roomId _ with
    | none => exact ⟨rfl, rfl⟩
    | some db2 =>
      simp only []
      unfold updateRoom at hu
      split at hu
      · cases hu
      · cases hu
        exact ⟨rfl, trivial⟩

/-- C5, refuted as stated: room 101 is taken on Monday at `8:40-9:30`.  When
the store rejects the conflict query, `checkRoomConflicts` returns `[]` and
`handleSaveClass` adds a second active schedule for the same room, day and
period without opening the conflict alert; when the professor field is empty
the handler returns before the check, so no alert opens either; and when
another writer takes the slot after the conflict query was answered on a free
store, the add goes through onto the taken store. -/
theorem handleSaveClass_adds_despite_taken_slot :
    slotTaken (filledView "101" "Dr. Rao" "Monday" "8:40-9:30") takenDb ∧
    (handleSaveClass asciiHost { queryFails := true }
        (filledView "101" "Dr. Rao" "Monday" "8:40-9:30") takenDb).db.schedules.length = 2 ∧
    (handleSaveClass asciiHost { queryFails := true }
        (filledView "101" "Dr. Rao" "Monday" "8:40-9:30") takenDb).view.conflictAlert = none ∧
    (handleSaveClass asciiHost {}
        (filledView "101" "" "Monday" "8:40-9:30") takenDb).view.conflictAlert = none ∧
    (handleSaveClassAt asciiHost {} (filledView "101" "Dr. Rao" "Monday" "8:40-9:30")
        { takenDb with schedules := [] } takenDb).db.schedules.length = 2 := by
  refine ⟨⟨heldClass "s1" "101" "Monday" "8:40-9:30", ?_, ?_, ?_, ?_, ?_⟩, ?_, ?_, ?_, ?_⟩ <;>
    decide

/-- C5, amended: `handleSaveClass` run on its own, that is with no other
writer changing the store between its conflict query and its add.

* With an empty room, course or professor it returns before the check:
  nothing is written, the view (timetable and conflict alert) is as it was,
  no call is sent, and the toast asks to fill all fields.
* With the three fields filled in and the conflict query answered, a taken
  slot makes it write nothing (store and local timetable unchanged, the only
  call is the conflict query) and open the conflict alert listing the
  conflicting schedules.
* With the three fields filled in, a rejected conflict query counts as a free
  slot: in both cases, the add being accepted, exactly the new schedule is
  appended and the conflict alert is left as it was.
* Hence the schedules change only when the fields are filled in and the slot
  is free or the conflict query was rejected. -/
theorem handleSaveClass_conflict_guard (host : Host) (sv : Service) (view : TimetableView)
    (db : Firestore) :
    ((view.formData.roomId = "" ∨ view.formData.course = "" ∨ view.formData.professor = "") →
      (handleSaveClass host sv view db).db = db ∧
      (handleSaveClass host sv view db).view = view ∧
      (handleSaveClass host sv view db).calls = [] ∧
      (handleSaveClass host sv view db).toast = some (.error "Please fill all fields")) ∧
    ((view.formData.roomId ≠ "" ∧ view.formData.course ≠ "" ∧ view.formData.professor ≠ "") →
      sv.queryFails = false → slotTaken view db →
      (handleSaveClass host sv view db).db = db ∧
      (handleSaveClass host sv view db).view.timetable = view.timetable ∧
      (handleSaveClass host sv view db).calls =
        [DocCall.querySchedules view.formData.roomId (some view.formData.day)
          (some view.formData.period)] ∧
      ∃ alert, (handleSaveClass host sv view db).view.conflictAlert = some alert ∧
        alert.conflicts ≠ [] ∧ ∀ s ∈ alert.conflicts, s ∈ db.schedules) ∧
    ((view.formData.roomId ≠ "" ∧ view.formData.course ≠ "" ∧ view.formData.professor ≠ "") →
      (sv.queryFails = true ∨ ¬ slotTaken view db) → sv.addFails = false →
      (handleSaveClass host sv view db).view.conflictAlert = view.conflictAlert ∧
      ∃ d, (handleSaveClass host sv view db).db.schedules = db.schedules ++ [d] ∧
        d.roomId = view.formData.roomId ∧ d.day = view.formData.day ∧
        d.period = view.formData.period ∧ d.isActive = true) ∧
    ((handleSaveClass host sv view db).db.schedules ≠ db.schedules →
      (view.formData.roomId ≠ "" ∧ view.formData.course ≠ "" ∧ view.formData.professor ≠ "") ∧
      (sv.queryFails = true ∨ ¬ slotTaken view db)) := by
  have hA : (view.formData.roomId = "" ∨ view.formData.course = "" ∨
      view.formData.professor = "") →
      (handleSaveClass host sv view db).db = db ∧
      (handleSaveClass host sv view db).view = view ∧
      (handleSaveClass host sv view db).calls = [] ∧
      (handleSaveClass host sv view db).toast = some (.error "Please fill all fields") := by
    intro h
    have hguard : (view.formData.roomId == "" || view.formData.course == "" ||
        view.formData.professor == "") = true := by
      rcases h with h | h | h <;> simp [h]
    simp only [handleSaveClass, handleSaveClassAt, hguard, if_true]
    exact ⟨trivial, trivial, trivial, trivial⟩
  have hB : (view.formData.roomId ≠ "" ∧ view.formData.course ≠ "" ∧
      view.formData.professor ≠ "") → sv.queryFails = false → slotTaken view db →
      (handleSaveClass host sv view db).db = db ∧
      (handleSaveClass host sv view db).view.timetable = view.timetable ∧
      (handleSaveClass host sv view db).calls =
        [DocCall.querySchedules view.formData.roomId (some view.formData.day)
          (some view.formData.period)] ∧
      ∃ alert, (handleSaveClass host sv view db).view.conflictAlert = some alert ∧
        alert.conflicts ≠ [] ∧ ∀ s ∈ alert.conflicts, s ∈ db.schedules := by
    rintro ⟨h1, h2, h3⟩ hq ht
    have hguard : (view.formData.roomId == "" || view.formData.course == "" ||
        view.formData.professor == "") = false := by simp [h1, h2, h3]
    have hne := checkRoomConflicts_ne_nil sv view db hq ht
    have hpos : (checkRoomConflicts sv db view.formData.roomId view.formData.day
        view.formData.period).length > 0 := List.length_pos.2 hne
    simp only [handleSaveClass, handleSaveClassAt, hguard, hpos, if_true, if_false,
      Bool.false_eq_true]
    refine ⟨trivial, trivial, trivial, _, rfl, hne, ?_⟩
    intro s hs
    simp only [checkRoomConflicts, hq, Bool.false_eq_true, if_false, List.mem_filter] at hs
    exact hs.1
  refine ⟨hA, hB, ?_, ?_⟩
  · rintro ⟨h1, h2, h3⟩ hfree hadd
    have hguard : (view.formData.roomId == "" || view.formData.course == "" ||
        view.formData.professor == "") = false := by simp [h1, h2, h3]
    obtain ⟨hs, ha⟩ := handleSaveClassAt_schedules host sv view db db hguard
      (checkRoomConflicts_eq_nil sv view db hfree) hadd
    refine ⟨ha, _, hs, rfl, rfl, rfl, rfl⟩
  · intro hchg
    by_cases hform : view.formData.roomId ≠ "" ∧ view.formData.course ≠ "" ∧
        view.formData.professor ≠ ""
    · refine ⟨hform, ?_⟩
      by_cases hq : sv.queryFails = true
      · exact Or.inl hq
      · refine Or.inr fun ht => hchg ?_
        rw [(hB hform (by simpa using hq) ht).1]
    · exfalso
      apply hchg
      have hempty : view.formData.roomId = "" ∨ view.formData.course = "" ∨
          view.formData.professor = "" := by
        by_contra hne
        simp only [not_or] at hne
        exact hform ⟨hne.1, hne.2.1, hne.2.2⟩
      rw [(hA hempty).1]

/-- C5 amended, at a concrete dialog: room 101 is taken on Monday at
`8:40-9:30`, the form is filled in and the query is answered. -/
theorem handleSaveClass_conflict_guard_witness :
    slotTaken (filledView "101" "Dr. Rao" "Monday" "8:40-9:30") takenDb ∧
    (handleSaveClass asciiHost {} (filledView "101" "Dr. Rao" "Monday" "8:40-9:30") takenDb).db
      = takenDb ∧
    (handleSaveClass asciiHost {}
      (filledView "101" "Dr. Rao" "Monday" "8:40-9:30") takenDb).view.conflictAlert.isSome
      = true :=
  have taken : slotTaken (filledView "101" "Dr. Rao" "Monday" "8:40-9:30") takenDb :=
    ⟨heldClass "s1" "101" "Monday" "8:40-9:30", by decide, by decide, by decide, by decide,
      by decide⟩
  ⟨taken,
   ((handleSaveClass_conflict_guard asciiHost {}
      (filledView "101" "Dr. Rao" "Monday" "8:40-9:30") takenDb).2.1
        (by decide) rfl taken).1,
   by decide⟩

/-! ## C6: the room records sent to the `rooms` upsert -/

/-- C6 (defect in the code): a file with one row for room `EEE_LAB`, a member
of `COLLEGE_ROOMS`, uploaded for department CSE.  The room is tracked under
the key `EEE_LAB_CSE`, and step 5 splits that key at every `_`: the one record
sent to the `rooms` upsert has id `EEE` and department `LAB`, with the name,
capacity and type of an unknown room, although `getRoomName`,
`getRoomCapacity` and `getRoomType` know `EEE_LAB` as `EEE Lab`, 20 seats, a
lab.  No record with id `EEE_LAB` is sent. -/
theorem handleFileUpload_splits_room_id :
    "EEE_LAB" ∈ COLLEGE_ROOMS ∧
    roomKey freshUi (csvRow "EEE_LAB" "Machines Lab" "Monday" "8:40-9:30") = "EEE_LAB_CSE" ∧
    roomsData asciiHost ["EEE_LAB_CSE"] = [splitLabRecord] ∧
    Call.upsertRooms [splitLabRecord] ∈
      (handleFileUpload asciiHost plainBackend freshUi (some labFile) {}).calls ∧
    (handleFileUpload asciiHost plainBackend freshUi (some labFile) {}).store.rooms
      = [splitLabRecord] ∧
    getRoomName "EEE_LAB" = "EEE Lab" ∧ getRoomCapacity "EEE_LAB" = 20 ∧
    getRoomType "EEE_LAB" = "lab" := by
  decide

/-! ## C7: the period format check -/

/-- C7, refuted as stated: the period `morning-evening` is not of the form
`H:MM-H:MM`, yet `validateCSVData` reports no error for its row, keeps the row
in `validRows`, and the upload inserts a schedule with that period. -/
theorem validateCSVData_accepts_non_clock_period :
    specIsPeriod "morning-evening" = false ∧
    (validateCSVData asciiHost plainBackend {} wordsFile.data).1.errors = [] ∧
    (validateCSVData asciiHost plainBackend {} wordsFile.data).1.validRows
      = [csvRow "101" "Algorithms" "Monday" "morning-evening"] ∧
    (handleFileUpload asciiHost plainBackend freshUi (some wordsFile) {}).store.schedules.map
      (fun s => s.period) = [some "morning-evening"] := by
  decide

/-- C7, amended: `validateCSVData` reports an `Invalid period format` error
for every row whose non-empty period contains no `-`, so every row in
`validRows` has a non-empty period containing `-`.  (The check looks for the
separator only; the two halves are not tested to be clock times.) -/
theorem validateCSVData_period_separator (host : Host) (be : Backend) (st : Store)
    (rows : List CsvRow) :
    (∀ (i : Nat) (row : CsvRow) (p : String), rows[i]? = some row → row.period = some p →
      p ≠ "" → jsIncludes p '-' = false →
      ("Row " ++ numToString (i + 2) ++ ": Invalid period format (should be like \"8:40-9:30\")")
        ∈ (validateCSVData host be st rows).1.errors) ∧
    (∀ row ∈ (validateCSVData host be st rows).1.validRows,
      ∃ p, row.period = some p ∧ p ≠ "" ∧ jsIncludes p '-' = true) := by
  constructor
  · intro i row p hrow hp hne hinc
    rw [validateCSVData_errors, mem_allErrors]
    refine ⟨i, row, hrow, ?_⟩
    simp only [rowErrors, hp, List.mem_append]
    refine Or.inr ?_
    simp [hne, hinc, rowTag]
  · intro row hrow
    rw [validateCSVData_validRows, List.mem_filter] at hrow
    have hc := hrow.2
    unfold rowComplete at hc
    cases hp : row.period with
    | none => simp [hp, truthy] at hc
    | some p =>
      simp only [hp, Bool.and_eq_true, truthy, bne_iff_ne, ne_eq] at hc
      exact ⟨p, rfl, hc.1.2, hc.2⟩

/-! ## C8: the values written to a room's status -/

theorem updateRoom_rooms (sv : Service) (db db1 : Firestore) (roomId : String)
    (f : RoomDoc → RoomDoc) (h : updateRoom sv db roomId f = some db1) :
    db1.schedules = db.schedules ∧
    ∀ r ∈ db1.rooms, r ∈ db.rooms ∨ ∃ r0 ∈ db.rooms, r = f r0 := by
  unfold updateRoom at h
  split at h
  · cases h
  · cases h
    refine ⟨rfl, ?_⟩
    intro r hr
    simp only [List.mem_map] at hr
    obtain ⟨r0, hr0, heq⟩ := hr
    split at heq
    · exact Or.inr ⟨r0, hr0, heq.symm⟩
    · exact Or.inl (heq ▸ hr0)

theorem handleUpdateRoomStatus_rooms (host : Host) (sv : Service) (roomId newStatus : String)
    (db : Firestore) :
    ∀ r ∈ (handleUpdateRoomStatus host sv roomId newStatus db).db.rooms,
      r ∈ db.rooms ∨ r.status = some newStatus := by
  intro r hr
  unfold handleUpdateRoomStatus at hr
  split at hr
  · exact Or.inl hr
  · rename_i db1 hu
    rcases (updateRoom_rooms sv db db1 roomId _ hu).2 r hr with h | ⟨r0, _, h⟩
    · exact Or.inl h
    · exact Or.inr (by rw [h])

theorem updateScheduleDoc_rooms (sv : Service) (db db1 : Firestore) (id : String)
    (f : ScheduleDoc → ScheduleDoc) (h : updateScheduleDoc sv db id f = some db1) :
    db1.rooms = db.rooms := by
  unfold updateScheduleDoc at h
  split at h
  · cases h
  · cases h
    rfl

theorem markAllAvailable_rooms (host : Host) (sv : Service) (rooms : List RoomDoc) :
    ∀ db : Firestore, ∀ r ∈ (markAllAvailable host sv rooms db).1.rooms,
      r ∈ db.rooms ∨ r.status = some "free" := by
  induction rooms with
  | nil => intro db r hr; exact Or.inl hr
  | cons room rest ih =>
    intro db r hr
    unfold markAllAvailable at hr
    split at hr
    · rcases ih _ r hr with h | h
      · exact handleUpdateRoomStatus_rooms host sv room.id "free" db r h
      · exact Or.inr h
    · exact ih db r hr

theorem prepareRoom_status {V : Type} (host : Host) (ops : CellOps V) (row : RawRow V)
    (room : PreparedRoom V) (h : prepareRoom host ops row = .ok room) : room.status = "free" := by
  unfold prepareRoom at h
  cases hf : prepareFeatures ops row.features with
  | error e => rw [hf] at h; cases h
  | ok fs => rw [hf] at h; cases h; rfl

theorem prepareRoomLoop_status {V : Type} (host : Host) (ops : CellOps V)
    (rows : List (RawRow V)) :
    ∀ (acc out : List (String × PreparedRoom V)),
      (∀ e ∈ acc, e.2.status = "free") → prepareRoomLoop host ops rows acc = .ok out →
      ∀ e ∈ out, e.2.status = "free" := by
  induction rows with
  | nil =>
    intro acc out hacc h
    simp only [prepareRoomLoop] at h
    cases h
    exact hacc
  | cons row rest ih =>
    intro acc out hacc h
    simp only [prepareRoomLoop] at h
    split_ifs at h with hk
    · exact ih acc out hacc h
    · cases hroom : prepareRoom host ops row with
      | error e => rw [hroom] at h; cases h
      | ok room =>
        rw [hroom] at h
        refine ih _ out ?_ h
        intro e he
        simp only [List.mem_append, List.mem_singleton] at he
        rcases he with he | he
        · exact hacc e he
        · rw [he]
          exact prepareRoom_status host ops row room hroom

/-- C8, refuted as stated: the room record the CSV import sends to the
`rooms` upsert for room 101 carries the status `available`, which is none of
`free`, `busy`, `occupied`, `cancelled`. -/
theorem roomsData_status_not_named :
    "available" ∉ namedStatuses ∧
    (roomsData asciiHost ["101_CSE"]).map (fun r => r.status) = ["available"] ∧
    ((handleFileUpload asciiHost plainBackend freshUi (some oneRoomFile) {}).store.rooms.map
      fun r => r.status) = ["available"] := by
  decide

/-- C8, amended: every value a component writes to a room's status is one of
`free`, `busy`, `occupied`, `cancelled` or `available`.  The CSV import room
upsert writes `available` in every record; manual scheduling changes a room
(saving a class or resolving a conflict) only to `busy`, class cancellation
(from the form or the quick dialog) only to `cancelled`, the admin status
toggle only to `occupied` or `free` and "Mark All as Available" only to
`free`; `prepareRoomData` gives every record `free`. -/
theorem room_status_values :
    (∀ (host : Host) (roomsSet : List String), ∀ r ∈ roomsData host roomsSet,
      r.status = "available") ∧
    (∀ (host : Host) (sv : Service) (view : TimetableView) (db : Firestore),
      ∀ r ∈ (handleSaveClass host sv view db).db.rooms, r ∈ db.rooms ∨ r.status = some "busy") ∧
    (∀ (host : Host) (sv : Service) (view : TimetableView) (alt : String) (db : Firestore),
      ∀ r ∈ (handleConflictResolution host sv view alt db).db.rooms,
        r ∈ db.rooms ∨ r.status = some "busy") ∧
    (∀ (host : Host) (sv : Service) (view : CancelView) (db : Firestore),
      ∀ r ∈ (handleCancelClass host sv view db).db.rooms,
        r ∈ db.rooms ∨ r.status = some "cancelled") ∧
    (∀ (host : Host) (sv : Service) (cls : Option ScheduleDoc) (db : Firestore),
      ∀ r ∈ (confirmQuickCancel host sv cls db).db.rooms,
        r ∈ db.rooms ∨ r.status = some "cancelled") ∧
    (∀ (host : Host) (sv : Service) (room : RoomDoc) (db : Firestore),
      ∀ r ∈ (toggleRoomStatus host sv room db).db.rooms,
        r ∈ db.rooms ∨ r.status = some "occupied" ∨ r.status = some "free") ∧
    (∀ (host : Host) (sv : Service) (rooms : List RoomDoc) (db : Firestore),
      ∀ r ∈ (markAllAvailable host sv rooms db).1.rooms, r ∈ db.rooms ∨ r.status = some "free") ∧
    (∀ (V : Type) (host : Host) (ops : CellOps V) (csvData : List (RawRow V))
      (rooms : List (PreparedRoom V)), prepareRoomData host ops csvData = .ok rooms →
      ∀ r ∈ rooms, r.status = "free") := by
  have hbusy : ∀ (host : Host) (sv : Service) (db : Firestore) (r : RoomDoc)
      (db0 db2 : Firestore) (roomId course : String),
      r ∈ db2.rooms →
      updateRoom sv db0 roomId (fun r =>
        { r with status := some "busy", currentClass := some course,
                 updatedAt := some host.now }) = some db2 →
      db0.rooms = db.rooms →
      r ∈ db.rooms ∨ r.status = some "busy" := by
    intro host sv db r db0 db2 roomId course hr2 hu h0
    rcases (updateRoom_rooms sv db0 db2 _ _ hu).2 r hr2 with h | ⟨r0, _, h⟩
    · exact Or.inl (h0 ▸ h)
    · exact Or.inr (by rw [h])
  have hcancelled : ∀ (host : Host) (sv : Service) (db : Firestore) (r : RoomDoc)
      (db0 db2 : Firestore) (roomId why : String),
      r ∈ db2.rooms →
      updateRoom sv db0 roomId (fun r =>
        { r with status := some "cancelled", reason := some why,
                 cancelledAt := some host.now, updatedAt := some host.now }) = some db2 →
      db0.rooms = db.rooms →
      r ∈ db.rooms ∨ r.status = some "cancelled" := by
    intro host sv db r db0 db2 roomId why hr2 hu h0
    rcases (updateRoom_rooms sv db0 db2 _ _ hu).2 r hr2 with h | ⟨r0, _, h⟩
    · exact Or.inl (h0 ▸ h)
    · exact Or.inr (by rw [h])
  refine ⟨?_, ?_, ?_, ?_, ?_, ?_, ?_, ?_⟩
  · intro host roomsSet r hr
    simp only [roomsData, List.mem_map] at hr
    obtain ⟨key, _, hkey⟩ := hr
    rw [← hkey]
    rfl
  · intro host sv view db r hr
    simp only [handleSaveClass, handleSaveClassAt] at hr
    repeat' split at hr
    all_goals try simp only [] at hr
    all_goals first
      | exact Or.inl hr
      | (apply hbusy host sv db r
         · exact hr
         · assumption
         · rfl)
  · intro host sv view alt db r hr
    simp only [handleConflictResolution] at hr
    repeat' split at hr
    all_goals try simp only [] at hr
    all_goals first
      | exact Or.inl hr
      | (apply hbusy host sv db r
         · exact hr
         · assumption
         · rfl)
  · intro host sv view db r hr
    simp only [handleCancelClass] at hr
    repeat' split at hr
    all_goals try simp only [] at hr
    all_goals first
      | exact Or.inl hr
      | (apply hcancelled host sv db r
         · exact hr
         · assumption
         · rfl)
  · intro host sv cls db r hr
    simp only [confirmQuickCancel] at hr
    repeat' split at hr
    all_goals try simp only [] at hr
    all_goals first
      | exact Or.inl hr
      | (rename_i hs _ _
         exact Or.inl (updateScheduleDoc_rooms sv db _ _ _ hs ▸ hr))
      | (rename_i hs _ _ hu
         apply hcancelled host sv db r
         · exact hr
         · exact hu
         · exact updateScheduleDoc_rooms sv db _ _ _ hs)
  · intro host sv room db r hr
    rcases handleUpdateRoomStatus_rooms host sv room.id _ db r hr with h | h
    · exact Or.inl h
    · refine Or.inr ?_
      unfold toggledStatus at h
      split at h
      · exact Or.inl h
      · exact Or.inr h
  · intro host sv rooms db
    exact markAllAvailable_rooms host sv rooms db
  · intro V host ops csvData rooms h r hr
    unfold prepareRoomData at h
    cases hloop : prepareRoomLoop host ops csvData [] with
    | error e => rw [hloop] at h; cases h
    | ok roomMap =>
      rw [hloop] at h
      cases h
      simp only [List.mem_map] at hr
      obtain ⟨e, he, heq⟩ := hr
      rw [← heq]
      exact prepareRoomLoop_status host ops csvData [] roomMap (by simp) hloop e he

/-! ## C10: the column check -/

theorem ne_of_head_ne (s t : String) (h : s.data.head? ≠ t.data.head?) : s ≠ t := by
  intro hst
  exact h (by rw [hst])

theorem prepareRows_error_head (host : Host) (ui : UiState) (rows : List CsvRow) :
    ∀ (acc : Prepared) (e : String), prepareRows host ui rows acc = .error e →
      e.data.head? = some 'C' := by
  induction rows with
  | nil => intro acc e h; simp [prepareRows] at h
  | cons row rest ih =>
    intro acc e h
    unfold prepareRows at h
    cases hs : prepareSchedule host ui row with
    | error e' =>
      rw [hs] at h
      simp only [Except.error.injEq] at h
      subst h
      unfold prepareSchedule at hs
      split at hs
      · cases hs; rfl
      · cases hs; rfl
      · cases hs
    | ok s =>
      rw [hs] at h
      exact ih _ e h

theorem commitUpload_failed_head (host : Host) (be : Backend) (ui : UiState) (file : ParsedCsv)
    (v : Validation) (st : Store) (m : String)
    (h : (commitUpload host be ui file v st).outcome = .failed m) :
    m.data.head? = some 'C' ∨ m.data.head? = some 'N' := by
  simp only [commitUpload] at h
  split at h
  · rename_i e he
    simp only [Outcome.failed.injEq] at h
    subst h
    exact Or.inl (prepareRows_error_head host ui _ _ _ he)
  · split at h
    · simp only [Outcome.failed.injEq] at h
      subst h
      exact Or.inr rfl
    · cases h

/-- C10: for every non-empty parsed CSV, when the header list lacks at least
one of `room_id`, `room_name`, `course`, `day`, `period`, `handleFileUpload`
fails with `Missing columns: ` followed by the missing names joined by `, `,
sends no call to the store and leaves it unchanged; the missing names are
exactly the required names absent from the header, in the order of the
required list; and when none is missing the handler does not fail with a
`Missing columns: ` message. -/
theorem handleFileUpload_missing_columns (host : Host) (be : Backend) (ui : UiState)
    (file : ParsedCsv) (st : Store) (hdata : file.data ≠ []) :
    (missingColumns file.fields ≠ [] →
      (handleFileUpload host be ui (some file) st).outcome =
        .failed ("Missing columns: " ++ jsJoin ", " (missingColumns file.fields)) ∧
      (handleFileUpload host be ui (some file) st).calls = [] ∧
      (handleFileUpload host be ui (some file) st).store = st) ∧
    (∀ col, col ∈ missingColumns file.fields ↔
      col ∈ requiredColumns ∧ col ∉ file.fields.getD []) ∧
    (missingColumns file.fields).Sublist requiredColumns ∧
    (missingColumns file.fields = [] → ∀ names : String,
      (handleFileUpload host be ui (some file) st).outcome ≠
        .failed ("Missing columns: " ++ names)) := by
  have hlen : (file.data.length == 0) = false := by
    cases hd : file.data with
    | nil => exact absurd hd hdata
    | cons r rs => rfl
  refine ⟨?_, ?_, ?_, ?_⟩
  · intro hmiss
    have hpos : (missingColumns file.fields).length > 0 := List.length_pos.2 hmiss
    simp [handleFileUpload, checkUpload, hlen, hpos]
  · intro col
    simp [missingColumns, List.mem_filter]
  · exact List.filter_sublist _
  · intro hnil names hout
    have hhead : ("Missing columns: " ++ names).data.head? = some 'M' := by
      rw [String.data_append]; rfl
    simp only [handleFileUpload, checkUpload, hlen, hnil, List.length_nil, gt_iff_lt,
      lt_self_iff_false, if_false, Bool.false_eq_true, decide_False] at hout
    split at hout
    · rename_i outcome calls hc
      split_ifs at hc with h1 h2
      · simp only [Prod.mk.injEq, Sum.inl.injEq] at hc
        rw [← hc.1] at hout
        simp only [Outcome.failed.injEq] at hout
        have : ("Found " ++ numToString
            (validateCSVData host be st file.data).1.errors.length ++
            " validation errors").data.head? = some 'F' := by
          rw [String.data_append, String.data_append]; rfl
        rw [hout, hhead] at this
        cases this
      · simp only [Prod.mk.injEq, Sum.inl.injEq] at hc
        rw [← hc.1] at hout
        cases hout
      · simp at hc
    · rename_i validation calls hc
      simp only [] at hout
      rcases commitUpload_failed_head host be ui file validation st _ hout with h | h
      · rw [hhead] at h; cases h
      · rw [hhead] at h; cases h

/-- C10, at a concrete upload: a header without `room_name` and `day`. -/
theorem handleFileUpload_missing_columns_witness :
    shortHeaderFile.data ≠ [] ∧
    missingColumns shortHeaderFile.fields = ["room_name", "day"] ∧
    (handleFileUpload asciiHost plainBackend freshUi (some shortHeaderFile) {}).outcome =
      .failed "Missing columns: room_name, day" ∧
    (handleFileUpload asciiHost plainBackend freshUi (some shortHeaderFile) {}).calls = [] :=
  ⟨by decide, by decide,
   by
     rw [((handleFileUpload_missing_columns asciiHost plainBackend freshUi shortHeaderFile {}
       (by decide)).1 (by decide)).1]
     decide,
   ((handleFileUpload_missing_columns asciiHost plainBackend freshUi shortHeaderFile {}
       (by decide)).1 (by decide)).2.1⟩

/-! ## C9: two uploads racing on one store -/

theorem rowComplete_fields (r : CsvRow) (h : rowComplete r = true) :
    ∃ rid d p, r.room_id = some rid ∧ rid ≠ "" ∧ r.day = some d ∧ d ≠ "" ∧
      r.period = some p ∧ p ≠ "" := by
  unfold rowComplete at h
  simp only [Bool.and_eq_true] at h
  obtain ⟨⟨⟨⟨h1, _⟩, h3⟩, h4⟩, _⟩ := h
  cases hr : r.room_id with
  | none => simp [hr, truthy] at h1
  | some rid =>
    cases hd : r.day with
    | none => simp [hd, truthy] at h3
    | some d =>
      cases hp : r.period with
      | none => simp [hp, truthy] at h4
      | some p =>
        refine ⟨rid, d, p, rfl, ?_, rfl, ?_, rfl, ?_⟩
        · simpa [hr, truthy] using h1
        · simpa [hd, truthy] using h3
        · simpa [hp, truthy] using h4

theorem rowConflicts_of_free (host : Host) (be : Backend) (st : Store) (n : Nat) (r : CsvRow)
    (hfree : ∀ s ∈ st.schedules,
      ¬ (s.room_id = r.room_id ∧ some s.day = r.day.map host.toLowerCase ∧ s.is_active = true)) :
    (rowConflicts host be st n r).2 = [] := by
  unfold rowConflicts
  split
  · rename_i rid d p hr hd hp
    have hnil : st.schedules.filter
        (fun s => s.room_id == some rid && s.day == host.toLowerCase d && s.is_active) = [] := by
      rw [List.filter_eq_nil_iff]
      intro s hs hcond
      simp only [Bool.and_eq_true, beq_iff_eq] at hcond
      exact hfree s hs ⟨by rw [hr]; exact hcond.1.1, by rw [hd]; simp [hcond.1.2], hcond.2⟩
    have hsel : selectSchedules be st rid (host.toLowerCase d) = none ∨
        selectSchedules be st rid (host.toLowerCase d) = some [] := by
      unfold selectSchedules
      split
      · exact Or.inl rfl
      · exact Or.inr (by rw [hnil])
    split
    · rcases hsel with h | h
      · rw [h]
      · rw [h]; rfl
    · rfl
  · rfl

theorem validateCSVData_single (host : Host) (be : Backend) (st : Store) (r : CsvRow)
    (hr : rowComplete r = true)
    (hfree : ∀ s ∈ st.schedules,
      ¬ (s.room_id = r.room_id ∧ some s.day = r.day.map host.toLowerCase ∧ s.is_active = true)) :
    (validateCSVData host be st [r]).1.errors = [] ∧
    (validateCSVData host be st [r]).1.validRows = [r] ∧
    (validateCSVData host be st [r]).1.roomConflicts = [] := by
  refine ⟨?_, ?_, ?_⟩
  · rw [validateCSVData_errors]
    simp [allErrors, (rowErrors_eq_nil_iff 2 r).2 hr]
  · rw [validateCSVData_validRows]
    simp [hr]
  · simp only [validateCSVData, validateLoop, validateRow, List.nil_append]
    exact rowConflicts_of_free host be st _ r hfree

theorem checkUpload_single (host : Host) (be : Backend) (ui : UiState) (file : ParsedCsv)
    (st : Store) (r : CsvRow) (hdata : file.data = [r])
    (hcols : missingColumns file.fields = []) (hr : rowComplete r = true)
    (hdialog : ui.validationDialog = false)
    (hfree : ∀ s ∈ st.schedules,
      ¬ (s.room_id = r.room_id ∧ some s.day = r.day.map host.toLowerCase ∧ s.is_active = true)) :
    checkUpload host be ui file st =
      (.inr (validateCSVData host be st [r]).1, (validateCSVData host be st [r]).2) := by
  obtain ⟨he, _, _⟩ := validateCSVData_single host be st r hr hfree
  simp [checkUpload, hdata, hcols, he, hdialog]

theorem fetchUploadedFiles_schedules (be : Backend) (st : Store) :
    (fetchUploadedFiles be st).1.schedules = st.schedules := by
  unfold fetchUploadedFiles createTimetableFilesTable
  split
  · rfl
  · simp only []
    split <;> rfl
  · split
    · simp only []
      split <;> rfl
    · rfl

theorem saveFileInfo_schedules (be : Backend) (ui : UiState) (name : String) (stats : Stats)
    (st : Store) : (saveFileInfo be ui name stats st).1.schedules = st.schedules := by
  simp only [saveFileInfo]
  split
  · rfl
  · simp only [fetchUploadedFiles_schedules]

theorem prepareSchedule_of_fields (host : Host) (ui : UiState) (r : CsvRow) (d p : String)
    (hd : r.day = some d) (hp : r.period = some p) :
    ∃ s, prepareSchedule host ui r = .ok s ∧ s.room_id = r.room_id ∧
      s.day = host.toLowerCase d ∧ s.period = some p ∧ s.is_active = true := by
  unfold prepareSchedule
  rw [hd, hp]
  exact ⟨_, rfl, rfl, rfl, rfl, rfl⟩

theorem completeUpload_spec (host : Host) (be : Backend) (ui : UiState) (file : ParsedCsv)
    (prepared : Prepared) (counts : Counters) (st1 : Store) (calls1 : List Call) :
    (completeUpload host be ui file prepared counts st1 calls1).store.schedules = st1.schedules ∧
    (∀ c ∈ calls1, c ∈ (completeUpload host be ui file prepared counts st1 calls1).calls) ∧
    ∃ stats, (completeUpload host be ui file prepared counts st1 calls1).outcome
      = .succeeded stats := by
  refine ⟨?_, ?_, _, rfl⟩
  · simp only [completeUpload, saveFileInfo_schedules]
    split <;> split <;> rfl
  · intro c hc
    simp only [completeUpload, List.mem_append]
    refine Or.inl (Or.inl (Or.inl ?_))
    split
    · exact List.mem_append_left _ hc
    · exact hc

theorem commitUpload_single (host : Host) (be : Backend) (ui : UiState) (file : ParsedCsv)
    (v : Validation) (st : Store) (r : CsvRow) (s : Schedule)
    (haccept : ∀ st s, be.insertOutcome st s = .ok)
    (hv : v.validRows = [r]) (hc : v.roomConflicts = [])
    (hs : prepareSchedule host ui r = .ok s) :
    (commitUpload host be ui file v st).store.schedules = st.schedules ++ [s] ∧
    Call.insertSchedule s ∈ (commitUpload host be ui file v st).calls ∧
    ∃ stats, (commitUpload host be ui file v st).outcome = .succeeded stats := by
  simp only [commitUpload, hv, hc, List.length_nil, gt_iff_lt, lt_self_iff_false, if_false,
    prepareRows, hs, insertLoop, haccept, List.nil_append, List.length_cons, Nat.zero_add]
  rw [if_neg (by simp)]
  obtain ⟨h1, h2, h3⟩ := completeUpload_spec host be ui file
    { schedulesData := [s], roomsSet := setAdd [] (roomKey ui r),
      coursesSet := setAdd [] r.course }
    { successCount := 1 } { st with schedules := st.schedules ++ [s] } [Call.insertSchedule s]
  exact ⟨h1, h2 _ (List.mem_singleton.2 rfl), h3⟩

/-- The two moves of a session, run back to back, are `handleFileUpload`. -/
theorem advance_twice_eq_handleFileUpload (host : Host) (be : Backend) (s : Session)
    (st : Store) :
    advance host be s (advance host be s st .idle).2 (advance host be s st .idle).1 =
      (.finished (handleFileUpload host be s.ui (some s.file) st),
       (handleFileUpload host be s.ui (some s.file) st).store) := by
  simp only [advance, handleFileUpload]
  cases h : checkUpload host be s.ui s.file st with
  | mk res calls =>
    cases res with
    | inl outcome => rfl
    | inr validation => rfl

/-- C9: two invocations of `handleFileUpload`, each uploading one complete
row for the same room, day and period, share a store that holds no active
schedule for that room and day and that accepts inserts.  In the interleaving
"first validates, second validates, first commits, second commits" both
conflict checks report no conflict, both inserts are sent, and the store ends
with the two new active schedules for the same room, day and period. -/
theorem concurrent_uploads_double_book (host : Host) (be : Backend) (a b : Session)
    (ra rb : CsvRow) (st : Store)
    (haccept : ∀ st s, be.insertOutcome st s = .ok)
    (hda : a.file.data = [ra]) (hdb : b.file.data = [rb])
    (hca : missingColumns a.file.fields = []) (hcb : missingColumns b.file.fields = [])
    (hra : rowComplete ra = true) (hrb : rowComplete rb = true)
    (hroom : rb.room_id = ra.room_id) (hday : rb.day = ra.day) (hperiod : rb.period = ra.period)
    (hua : a.ui.validationDialog = false) (hub : b.ui.validationDialog = false)
    (hfree : ∀ s ∈ st.schedules,
      ¬ (s.room_id = ra.room_id ∧ some s.day = ra.day.map host.toLowerCase ∧
          s.is_active = true)) :
    ∃ va ca vb cb runA runB sa sb,
      World.run host be a b { store := st } [.first, .second] =
        { store := st, first := .validated va ca, second := .validated vb cb } ∧
      va.roomConflicts = [] ∧ vb.roomConflicts = [] ∧
      (World.run host be a b { store := st } [.first, .second, .first, .second]).first
        = .finished runA ∧
      (World.run host be a b { store := st } [.first, .second, .first, .second]).second
        = .finished runB ∧
      Call.insertSchedule sa ∈ runA.calls ∧ Call.insertSchedule sb ∈ runB.calls ∧
      (World.run host be a b { store := st } [.first, .second, .first, .second]).store.schedules
        = st.schedules ++ [sa, sb] ∧
      sa.room_id = ra.room_id ∧ sb.room_id = ra.room_id ∧ sa.day = sb.day ∧
      sa.period = ra.period ∧ sb.period = ra.period ∧
      sa.is_active = true ∧ sb.is_active = true := by
  have hfreeB : ∀ s ∈ st.schedules,
      ¬ (s.room_id = rb.room_id ∧ some s.day = rb.day.map host.toLowerCase ∧
          s.is_active = true) := by
    rw [hroom, hday]; exact hfree
  have hA := checkUpload_single host be a.ui a.file st ra hda hca hra hua hfree
  have hB := checkUpload_single host be b.ui b.file st rb hdb hcb hrb hub hfreeB
  obtain ⟨_, hvA, hcA⟩ := validateCSVData_single host be st ra hra hfree
  obtain ⟨_, hvB, hcB⟩ := validateCSVData_single host be st rb hrb hfreeB
  obtain ⟨rid, d, p, hrid, _, hd, _, hp, _⟩ := rowComplete_fields ra hra
  obtain ⟨sa, hsa, ha1, ha2, ha3, ha4⟩ := prepareSchedule_of_fields host a.ui ra d p hd hp
  obtain ⟨sb, hsb, hb1, hb2, hb3, hb4⟩ :=
    prepareSchedule_of_fields host b.ui rb d p (hday.trans hd) (hperiod.trans hp)
  obtain ⟨hA1, hA2, statsA, hA3⟩ := commitUpload_single host be a.ui a.file
    (validateCSVData host be st [ra]).1 st ra sa haccept hvA hcA hsa
  obtain ⟨hB1, hB2, statsB, hB3⟩ := commitUpload_single host be b.ui b.file
    (validateCSVData host be st [rb]).1
    (commitUpload host be a.ui a.file (validateCSVData host be st [ra]).1 st).store
    rb sb haccept hvB hcB hsb
  refine ⟨(validateCSVData host be st [ra]).1, (validateCSVData host be st [ra]).2,
    (validateCSVData host be st [rb]).1, (validateCSVData host be st [rb]).2,
    { commitUpload host be a.ui a.file (validateCSVData host be st [ra]).1 st with
      calls := (validateCSVData host be st [ra]).2 ++
        (commitUpload host be a.ui a.file (validateCSVData host be st [ra]).1 st).calls },
    { commitUpload host be b.ui b.file (validateCSVData host be st [rb]).1
        (commitUpload host be a.ui a.file (validateCSVData host be st [ra]).1 st).store with
      calls := (validateCSVData host be st [rb]).2 ++
        (commitUpload host be b.ui b.file (validateCSVData host be st [rb]).1
          (commitUpload host be a.ui a.file (validateCSVData host be st [ra]).1 st).store).calls },
    sa, sb, ?_, hcA, hcB, ?_, ?_, ?_, ?_, ?_,
    ha1, hb1.trans hroom, ha2.trans hb2.symm, ha3.trans hp.symm, hb3.trans hp.symm, ha4, hb4⟩
  · simp only [World.run, List.foldl, World.step, advance, hA, hB]
  · simp only [World.run, List.foldl, World.step, advance, hA, hB]
  · simp only [World.run, List.foldl, World.step, advance, hA, hB]
  · simp only []
    exact List.mem_append_right _ hA2
  · simp only []
    exact List.mem_append_right _ hB2
  · simp only [World.run, List.foldl, World.step, advance, hA, hB]
    rw [hB1, hA1]
    simp

/-- C9, at a concrete pair of uploads into an empty store without constraints. -/
theorem concurrent_uploads_double_book_witness :
    (World.run asciiHost plainBackend firstSession secondSession { store := {} }
      [.first, .second, .first, .second]).store.schedules.map
        (fun s => (s.room_id, s.day, s.period, s.course_name, s.is_active))
      = [(some "101", "monday", some "8:40-9:30", some "Algorithms", true),
         (some "101", "monday", some "8:40-9:30", some "Signals", true)] ∧
    ∃ va ca vb cb,
      World.run asciiHost plainBackend firstSession secondSession { store := {} }
          [.first, .second] =
        { store := {}, first := .validated va ca, second := .validated vb cb } ∧
      va.roomConflicts = [] ∧ vb.roomConflicts = [] :=
  ⟨by decide,
   by
     obtain ⟨va, ca, vb, cb, _, _, _, _, h1, h2, h3, _⟩ :=
       concurrent_uploads_double_book asciiHost plainBackend firstSession secondSession
         (csvRow "101" "Algorithms" "Monday" "8:40-9:30")
         (csvRow "101" "Signals" "Monday" "8:40-9:30") {}
         (fun _ _ => rfl) rfl rfl (by decide) (by decide) (by decide) (by decide)
         rfl rfl rfl rfl rfl (by decide)
     exact ⟨va, ca, vb, cb, h1, h2, h3⟩⟩

/-! ## C11: the column check of `csvProcessor.js` -/

theorem processor_missing_mem (keys : List String) (col : String) :
    col ∈ (processorColumns.filter fun col => !keys.contains col) ↔
      col ∈ processorColumns ∧ col ∉ keys := by
  simp [List.mem_filter]

theorem validateCSVData_of_keys {V : Type} (data : List (Option (List (String × V))))
    (keys : List String) (hkeys : firstRowKeys data = keys) :
    (csvProcessor.validateCSVData data = .ok true ↔ ∀ col ∈ processorColumns, col ∈ keys) ∧
    ((∃ col ∈ processorColumns, col ∉ keys) →
      csvProcessor.validateCSVData data =
        .error ("Missing required columns: " ++
          jsJoin ", " (processorColumns.filter fun col => !keys.contains col))) := by
  subst hkeys
  constructor
  · unfold csvProcessor.validateCSVData
    simp only []
    constructor
    · intro h col hcol
      by_contra hnot
      have hin := (processor_missing_mem (firstRowKeys data) col).2 ⟨hcol, hnot⟩
      have hpos : (processorColumns.filter fun col =>
          !(firstRowKeys data).contains col).length > 0 :=
        List.length_pos.2 (List.ne_nil_of_mem hin)
      rw [if_pos hpos] at h
      cases h
    · intro h
      have hnil : (processorColumns.filter fun col =>
          !(firstRowKeys data).contains col) = [] := by
        rw [List.filter_eq_nil_iff]
        intro col hcol
        simp [h col hcol]
      rw [hnil]
      rfl
  · rintro ⟨col, hcol, hnot⟩
    have hin := (processor_missing_mem (firstRowKeys data) col).2 ⟨hcol, hnot⟩
    have hpos : (processorColumns.filter fun col =>
        !(firstRowKeys data).contains col).length > 0 :=
      List.length_pos.2 (List.ne_nil_of_mem hin)
    unfold csvProcessor.validateCSVData
    simp only []
    rw [if_pos hpos]

/-- C11: let `data` begin with the row `row`, whose keys are the names of its
properties.  `validateCSVData` of `csvProcessor.js` returns `true` exactly
when these keys include all of `room_id`, `room_name`, `building`,
`capacity`, `course`, `professor`, `day`, `period`, whatever the later rows
hold; otherwise it throws an error whose message is
`Missing required columns: ` followed by the absent names, in the order of
the required list, joined by `, `.  For an empty data list, and for one whose
first entry is `null`, the message lists all eight names. -/
theorem csvProcessor_validateCSVData_spec {V : Type} (row : List (String × V))
    (rest : List (Option (List (String × V)))) :
    (csvProcessor.validateCSVData (some row :: rest) = .ok true ↔
      ∀ col ∈ ["room_id", "room_name", "building", "capacity", "course", "professor", "day",
        "period"], ∃ value, (col, value) ∈ row) ∧
    ((∃ col ∈ ["room_id", "room_name", "building", "capacity", "course", "professor", "day",
        "period"], ¬ ∃ value, (col, value) ∈ row) →
      csvProcessor.validateCSVData (some row :: rest) =
        .error ("Missing required columns: " ++
          jsJoin ", " (["room_id", "room_name", "building", "capacity", "course", "professor",
            "day", "period"].filter fun col => !(row.map fun property => property.1).contains col))) ∧
    (∀ col, col ∈ (["room_id", "room_name", "building", "capacity", "course", "professor",
        "day", "period"].filter fun col => !(row.map fun property => property.1).contains col) ↔
      col ∈ ["room_id", "room_name", "building", "capacity", "course", "professor", "day",
        "period"] ∧ ¬ ∃ value, (col, value) ∈ row) ∧
    csvProcessor.validateCSVData ([] : List (Option (List (String × V)))) =
      .error ("Missing required columns: room_id, room_name, building, capacity, course, " ++
        "professor, day, period") ∧
    csvProcessor.validateCSVData (none :: rest) =
      .error ("Missing required columns: room_id, room_name, building, capacity, course, " ++
        "professor, day, period") := by
  have hkey : ∀ col : String, col ∈ (row.map fun property => property.1) ↔
      ∃ value, (col, value) ∈ row := by
    intro col
    simp only [List.mem_map]
    constructor
    · rintro ⟨⟨k, v⟩, hmem, hk⟩
      exact ⟨v, by simpa [← hk] using hmem⟩
    · rintro ⟨v, hmem⟩
      exact ⟨(col, v), hmem, rfl⟩
  obtain ⟨h1, h2⟩ := validateCSVData_of_keys (some row :: rest)
    (row.map fun (property : String × V) => property.1) rfl
  refine ⟨?_, ?_, ?_, rfl, rfl⟩
  · rw [h1]
    constructor
    · intro h col hcol
      exact (hkey col).1 (h col hcol)
    · intro h col hcol
      exact (hkey col).2 (h col hcol)
  · rintro ⟨col, hcol, hnot⟩
    exact h2 ⟨col, hcol, fun hin => hnot ((hkey col).1 hin)⟩
  · intro col
    have := processor_missing_mem (row.map fun property => property.1) col
    rw [hkey col] at this
    exact this

/-- C11, at concrete first rows: a row with the eight required columns (and
one more) is accepted, a row without `building` and `capacity` is rejected
with these two names, and the rows after the first play no part. -/
theorem csvProcessor_validateCSVData_witness :
    csvProcessor.validateCSVData
      [some [("room_id", "101"), ("room_name", "Room 101"), ("building", "Main Building"),
             ("capacity", "40"), ("course", "Algorithms"), ("professor", "Dr. Rao"),
             ("day", "Monday"), ("period", "8:40-9:30"), ("department", "CSE")],
       some [("room_id", "102")]] = .ok true ∧
    csvProcessor.validateCSVData
      [some [("room_id", "101"), ("room_name", "Room 101"), ("course", "Algorithms"),
             ("professor", "Dr. Rao"), ("day", "Monday"), ("period", "8:40-9:30")]] =
      .error "Missing required columns: building, capacity" :=
  ⟨(csvProcessor_validateCSVData_spec
      [("room_id", "101"), ("room_name", "Room 101"), ("building", "Main Building"),
       ("capacity", "40"), ("course", "Algorithms"), ("professor", "Dr. Rao"),
       ("day", "Monday"), ("period", "8:40-9:30"), ("department", "CSE")]
      [some [("room_id", "102")]]).1.2 (by
        intro col hcol
        simp only [List.mem_cons, List.mem_singleton, List.not_mem_nil, or_false] at hcol
        rcases hcol with h | h | h | h | h | h | h | h <;> subst h
        · exact ⟨"101", by decide⟩
        · exact ⟨"Room 101", by decide⟩
        · exact ⟨"Main Building", by decide⟩
        · exact ⟨"40", by decide⟩
        · exact ⟨"Algorithms", by decide⟩
        · exact ⟨"Dr. Rao", by decide⟩
        · exact ⟨"Monday", by decide⟩
        · exact ⟨"8:40-9:30", by decide⟩),
   by
     rw [(csvProcessor_validateCSVData_spec
       [("room_id", "101"), ("room_name", "Room 101"), ("course", "Algorithms"),
        ("professor", "Dr. Rao"), ("day", "Monday"), ("period", "8:40-9:30")] []).2.1
       ⟨"building", by decide, by
         rintro ⟨value, hmem⟩
         simp at hmem⟩]
     rfl⟩

/-! ## C16: the counters of the insert loop -/

theorem insertLoop_spec (be : Backend) (schedules : List Schedule) :
    ∀ (c : Counters) (st : Store) (calls : List Call),
      (insertLoop be schedules (c, st, calls)).2.2 = calls ++ schedules.map Call.insertSchedule ∧
      (insertLoop be schedules (c, st, calls)).1.successCount +
        (insertLoop be schedules (c, st, calls)).1.duplicateCount +
        (insertLoop be schedules (c, st, calls)).1.errorCount =
        c.successCount + c.duplicateCount + c.errorCount + schedules.length ∧
      st.schedules <+: (insertLoop be schedules (c, st, calls)).2.1.schedules := by
  induction schedules with
  | nil => intro c st calls; simp [insertLoop]
  | cons s rest ih =>
    intro c st calls
    simp only [insertLoop]
    split
    · obtain ⟨h1, h2, h3⟩ := ih { c with successCount := c.successCount + 1 }
        { st with schedules := st.schedules ++ [s] } (calls ++ [Call.insertSchedule s])
      refine ⟨by rw [h1]; simp, by rw [h2]; simp only [List.length_cons]; omega, ?_⟩
      exact (List.prefix_append st.schedules [s]).trans h3
    · split
      · obtain ⟨h1, h2, h3⟩ := ih { c with duplicateCount := c.duplicateCount + 1 } st
          (calls ++ [Call.insertSchedule s])
        exact ⟨by rw [h1]; simp, by rw [h2]; simp only [List.length_cons]; omega, h3⟩
      · obtain ⟨h1, h2, h3⟩ := ih { c with errorCount := c.errorCount + 1 } st
          (calls ++ [Call.insertSchedule s])
        exact ⟨by rw [h1]; simp, by rw [h2]; simp only [List.length_cons]; omega, h3⟩
    · split
      · obtain ⟨h1, h2, h3⟩ := ih { c with duplicateCount := c.duplicateCount + 1 } st
          (calls ++ [Call.insertSchedule s])
        exact ⟨by rw [h1]; simp, by rw [h2]; simp only [List.length_cons]; omega, h3⟩
      · obtain ⟨h1, h2, h3⟩ := ih { c with errorCount := c.errorCount + 1 } st
          (calls ++ [Call.insertSchedule s])
        exact ⟨by rw [h1]; simp, by rw [h2]; simp only [List.length_cons]; omega, h3⟩

/-- C16: in the insert loop of `handleFileUpload`, started with the three
counters at zero, the calls sent are one insert per prepared schedule, in
order (each attempted once, none retried); each attempt moves exactly one
counter by one (`successCount` when the insert is accepted, `duplicateCount`
when it is answered or thrown with code `23505`, `errorCount` otherwise); and
after the loop the three counters add up to the number of prepared schedules. -/
theorem insertLoop_counts (be : Backend) (schedulesData : List Schedule) (st : Store) :
    (insertLoop be schedulesData ({}, st, [])).2.2 = schedulesData.map Call.insertSchedule ∧
    (insertLoop be schedulesData ({}, st, [])).1.successCount +
      (insertLoop be schedulesData ({}, st, [])).1.duplicateCount +
      (insertLoop be schedulesData ({}, st, [])).1.errorCount = schedulesData.length ∧
    (∀ (s : Schedule) (c : Counters) (st0 : Store) (calls : List Call),
      (be.insertOutcome st0 s = .ok ∧
        (insertLoop be [s] (c, st0, calls)).1 = { c with successCount := c.successCount + 1 }) ∨
      ((be.insertOutcome st0 s = .error "23505" ∨ be.insertOutcome st0 s = .thrown "23505") ∧
        (insertLoop be [s] (c, st0, calls)).1 =
          { c with duplicateCount := c.duplicateCount + 1 }) ∨
      ((∃ code, code ≠ "23505" ∧
          (be.insertOutcome st0 s = .error code ∨ be.insertOutcome st0 s = .thrown code)) ∧
        (insertLoop be [s] (c, st0, calls)).1 = { c with errorCount := c.errorCount + 1 })) := by
  obtain ⟨h1, h2, _⟩ := insertLoop_spec be schedulesData {} st []
  refine ⟨by simpa using h1, by simpa using h2, ?_⟩
  intro s c st0 calls
  simp only [insertLoop]
  cases ho : be.insertOutcome st0 s with
  | ok => exact Or.inl ⟨rfl, rfl⟩
  | error code =>
    by_cases hc : code = "23505"
    · subst hc
      exact Or.inr (Or.inl ⟨Or.inl rfl, rfl⟩)
    · refine Or.inr (Or.inr ⟨⟨code, hc, Or.inl rfl⟩, ?_⟩)
      simp [hc]
  | thrown code =>
    by_cases hc : code = "23505"
    · subst hc
      exact Or.inr (Or.inl ⟨Or.inr rfl, rfl⟩)
    · refine Or.inr (Or.inr ⟨⟨code, hc, Or.inr rfl⟩, ?_⟩)
      simp [hc]

/-! ## C12: conflict resolution `override` -/

theorem commitUpload_keeps_schedules (host : Host) (be : Backend) (ui : UiState)
    (file : ParsedCsv) (v : Validation) (st : Store) :
    st.schedules <+: (commitUpload host be ui file v st).store.schedules := by
  simp only [commitUpload]
  split
  · exact List.prefix_refl _
  · rename_i prepared _
    have h := (insertLoop_spec be prepared.schedulesData {} st []).2.2
    split
    · exact h
    · rw [(completeUpload_spec host be ui file prepared _ _ _).1]
      exact h

/-- Whatever the resolution and the store's answers, an upload leaves every
stored schedule in place and unchanged: the table only grows at its end. -/
theorem handleFileUpload_keeps_schedules (host : Host) (be : Backend) (ui : UiState)
    (event : Option ParsedCsv) (st : Store) :
    st.schedules <+: (handleFileUpload host be ui event st).store.schedules := by
  unfold handleFileUpload
  split
  · exact List.prefix_refl _
  · split
    · exact List.prefix_refl _
    · exact commitUpload_keeps_schedules host be ui _ _ st

/-- C12 (defect in the code): room 101 is booked on Monday at `8:40-9:30`
and a file with one row for room 101, Monday, `8:40-9:30` is uploaded with
the resolution `override`.  `validateCSVData` reports the stored booking as
a conflict of row 2 and the upload completes with one new schedule; the
stored booking is still in the table and still active, so the table now
holds two active schedules for that room, day and period.  The only calls
that write are one insert into `schedules`, the room and summary upserts and
the file record: nothing updates or removes a schedule. -/
theorem handleFileUpload_override_keeps_booking :
    (validateCSVData asciiHost plainBackend bookedOnce oneRoomFile.data).1.roomConflicts.map
      (fun c => (c.row, c.room, c.conflictPeriod)) = [(2, "101", "8:40-9:30")] ∧
    (handleFileUpload asciiHost plainBackend overrideUi (some oneRoomFile) bookedOnce).outcome =
      .succeeded { rows := 1, newSchedules := 1, duplicates := 0, errors := 0, rooms := 1,
                   courses := 1 } ∧
    booking "101" "monday" "8:40-9:30" ∈
      (handleFileUpload asciiHost plainBackend overrideUi (some oneRoomFile)
        bookedOnce).store.schedules ∧
    ((handleFileUpload asciiHost plainBackend overrideUi (some oneRoomFile)
        bookedOnce).store.schedules.filter fun s =>
      s.room_id == some "101" && s.day == "monday" && s.period == some "8:40-9:30"
        && s.is_active).length = 2 ∧
    ((handleFileUpload asciiHost plainBackend overrideUi (some oneRoomFile)
        bookedOnce).calls.filter Call.isWrite).length = 4 := by
  decide

/-! ## C13: which rooms the student view marks occupied -/

/-- C13 (defect in the code): it is Monday 09:00, Monday is selected, and
room 101 has an active schedule on Monday with period `8:40-9:30`.  As clock
times 8:40 <= 9:00 < 9:30 (520 <= 540 < 570 minutes), so the room is in use;
`fetchRoomSchedules` compares the strings `"09:00"` and `"8:40"`, finds
`"09:00" >= "8:40"` false, and leaves the room not occupied with no current
schedule, announcing the running class as the next one. -/
theorem fetchRoomSchedules_misses_running_class :
    specClockMinutes "8:40" = some 520 ∧ specClockMinutes (timeString 9 0) = some 540 ∧
    specClockMinutes "9:30" = some 570 ∧
    jsGe (some (timeString 9 0)) (some "8:40") = false ∧
    (fetchRoomSchedules unitOrder false "monday" "monday" 9 0 mondayStore).map
      (fun m => m.map fun e =>
        (e.1, e.2.isCurrentlyOccupied, e.2.currentSchedule, e.2.nextAvailableTime))
      = some [("101", false, none, "Free until 8:40")] := by
  decide

/-! ## C14: which schedule a cancellation marks inactive -/

/-- C14 (defect in the code): room 101 has two active schedules, Mathematics
(listed first) and Physics, and its current class is Physics.  Cancelling the
class of room 101 succeeds and sets the room to `cancelled` with the reason
given, but the schedule marked inactive is Mathematics, the first document
the query returns; the Physics schedule stays active. -/
theorem handleCancelClass_cancels_first_schedule :
    (handleCancelClass asciiHost {} cancelForm twoClassDb).toast =
      some (.success "Class cancelled successfully! Room status updated in real-time.") ∧
    (handleCancelClass asciiHost {} cancelForm twoClassDb).db.rooms.map
      (fun r => (r.id, r.status, r.reason, r.currentClass))
      = [("101", some "cancelled", some "Faculty unavailable", some "Physics")] ∧
    (handleCancelClass asciiHost {} cancelForm twoClassDb).db.schedules.map
      (fun s => (s.id, s.course, s.isActive))
      = [("s1", "Mathematics", false), ("s2", "Physics", true)] := by
  decide

/-! ## C15: the login form and the sign-in service -/

/-- C15 (defect in the code): the sign-in service accepts the password
`admin123` for `cse_admin@campus.edu` and rejects `guess`.  `handleLogin`
never consults it: with the rejected password it shows
`Login successful! Redirecting...` and navigates to `/admin`, the same
outcome as with the accepted password. -/
theorem handleLogin_ignores_sign_in :
    (login campusSignIn "cse_admin@campus.edu" "admin123").success = true ∧
    (login campusSignIn "cse_admin@campus.edu" "guess").success = false ∧
    handleLogin (adminForm "guess") =
      { toast := .success "Login successful! Redirecting...",
        navigate := some ("/admin", some "CSE") } ∧
    handleLogin (adminForm "guess") = handleLogin (adminForm "admin123") := by
  decide

end SmartCampus
